import Mathlib

/-!
Verification development for the CZC compiler front end.

The definitions below are a shallow embedding of the lexer
(`src/lexer/*.cpp`), the source arena (`source_manager.cpp`) and the
diagnostics context (`diag/diag_context.cpp`).  Source text is modelled as a
list of bytes (natural numbers below 256 in practice); every C++ scanning
loop is rendered as a structurally recursive function on a fuel argument
that is initialised with `src.length - pos + 1`.  Since every continuing
loop iteration in the C++ code advances the cursor by at least one byte,
this fuel is never exhausted before the loop's own exit condition fires, so
the fuelled functions compute exactly what the C++ loops compute.
-/

namespace CZC

/-- Token kinds, mirroring `enum class TokenType` in `token.hpp`. -/
inductive TokenType where
  | IDENTIFIER
  | KW_LET | KW_VAR | KW_FN | KW_STRUCT | KW_ENUM | KW_TYPE | KW_IMPL | KW_TRAIT | KW_RETURN
  | KW_IF | KW_ELSE | KW_WHILE | KW_FOR | KW_IN | KW_BREAK | KW_CONTINUE | KW_MATCH
  | KW_IMPORT | KW_AS
  | COMMENT_LINE | COMMENT_BLOCK | COMMENT_DOC
  | LIT_INT | LIT_FLOAT | LIT_DECIMAL
  | LIT_STRING | LIT_RAW_STRING | LIT_TEX_STRING
  | LIT_TRUE | LIT_FALSE | LIT_NULL
  | OP_PLUS | OP_MINUS | OP_STAR | OP_SLASH | OP_PERCENT
  | OP_EQ | OP_NE | OP_LT | OP_LE | OP_GT | OP_GE
  | OP_LOGICAL_AND | OP_LOGICAL_OR | OP_LOGICAL_NOT
  | OP_BIT_AND | OP_BIT_OR | OP_BIT_XOR | OP_BIT_NOT | OP_BIT_SHL | OP_BIT_SHR
  | OP_ASSIGN | OP_PLUS_ASSIGN | OP_MINUS_ASSIGN | OP_STAR_ASSIGN | OP_SLASH_ASSIGN
  | OP_PERCENT_ASSIGN | OP_AND_ASSIGN | OP_OR_ASSIGN | OP_XOR_ASSIGN
  | OP_SHL_ASSIGN | OP_SHR_ASSIGN
  | OP_DOT_DOT | OP_DOT_DOT_EQ
  | OP_ARROW | OP_FAT_ARROW | OP_DOT | OP_AT | OP_COLON_COLON
  | DELIM_LPAREN | DELIM_RPAREN | DELIM_LBRACE | DELIM_RBRACE
  | DELIM_LBRACKET | DELIM_RBRACKET
  | DELIM_COMMA | DELIM_COLON | DELIM_SEMICOLON | DELIM_UNDERSCORE
  | OP_HASH | OP_DOLLAR | OP_BACKSLASH
  | TOKEN_NEWLINE | TOKEN_EOF | TOKEN_WHITESPACE | TOKEN_UNKNOWN
deriving DecidableEq, Repr

/-- Lexer error codes, mirroring `enum class LexerErrorCode` in
`lexer_error.hpp` (numeric values 1001-1041). -/
inductive LexerErrorCode where
  | MissingHexDigits
  | MissingBinaryDigits
  | MissingOctalDigits
  | MissingExponentDigits
  | InvalidTrailingChar
  | InvalidNumberSuffix
  | InvalidEscapeSequence
  | UnterminatedString
  | InvalidHexEscape
  | InvalidUnicodeEscape
  | UnterminatedRawString
  | InvalidCharacter
  | InvalidUtf8Sequence
  | UnterminatedBlockComment
  | TokenTooLong
deriving DecidableEq, Repr

/-- One recorded lexer error: error code plus the source location it was
reported at (mirrors `struct LexerError`; the pre-formatted message text is
not modelled). -/
structure LexError where
  code : LexerErrorCode
  line : Nat
  col : Nat
  offset : Nat
deriving DecidableEq, Repr

/-- Combined scanning state: the `SourceReader` cursor (source bytes,
byte position, 1-based line and column) plus the `ErrorCollector`. -/
structure LexState where
  src : List Nat
  buffer : Nat
  pos : Nat
  line : Nat
  col : Nat
  errors : List LexError
deriving DecidableEq, Repr

namespace LexState

/-- `SourceReader::current`. -/
def current (s : LexState) : Option Nat := s.src[s.pos]?

/-- `SourceReader::peek`. -/
def peek (s : LexState) (off : Nat) : Option Nat := s.src[s.pos + off]?

/-- `SourceReader::isAtEnd`. -/
def isAtEnd (s : LexState) : Bool := decide (s.src.length ≤ s.pos)

/-- `ScanContext::check`. -/
def check (s : LexState) (c : Nat) : Bool := decide (s.current = some c)

/-- `utf8::isContinuationByte`: `(byte AND 0xC0) == 0x80`. -/
def isContinuationByte (b : Nat) : Bool := decide (b &&& 192 = 128)

/-- `SourceReader::advance()`: move one byte forward, updating the
1-based line/column bookkeeping exactly as the C++ does. -/
def advance (s : LexState) : LexState :=
  match s.src[s.pos]? with
  | none => s
  | some ch =>
    if ch = 10 then { s with pos := s.pos + 1, line := s.line + 1, col := 1 }
    else if ch = 13 then
      if s.src[s.pos + 1]? = some 10 then { s with pos := s.pos + 1 }
      else { s with pos := s.pos + 1, line := s.line + 1, col := 1 }
    else if isContinuationByte ch then { s with pos := s.pos + 1 }
    else { s with pos := s.pos + 1, col := s.col + 1 }

/-- `SourceReader::advance(count)`. -/
def advanceN (s : LexState) : Nat → LexState
  | 0 => s
  | n + 1 => if s.pos < s.src.length then (advance s).advanceN n else s

/-- `ErrorCollector::add` through `ScanContext::reportError`. -/
def reportError (s : LexState) (c : LexerErrorCode) (line col offset : Nat) : LexState :=
  { s with errors := s.errors ++ [⟨c, line, col, offset⟩] }

/-- `SourceReader::textFrom`. -/
def textFrom (s : LexState) (startOffset : Nat) : List Nat :=
  if s.src.length ≤ startOffset ∨ s.pos < startOffset then []
  else (s.src.drop startOffset).take (s.pos - startOffset)

end LexState

/-- A scanned token.  Mirrors `class Token` in `token.hpp`: kind, buffer
handle, value offset/length, raw-literal offset/length, start location and
the escape-flag bits.  The constructor used by `ScanContext::makeToken`
initialises the raw-literal slice to the value slice. -/
structure Token where
  type : TokenType
  buffer : Nat
  offset : Nat
  length : Nat
  rawOffset : Nat
  rawLength : Nat
  line : Nat
  col : Nat
  escNamed : Bool
  escHex : Bool
  escUnicode : Bool
deriving DecidableEq, Repr

/-- Escape-flag accumulator used by the string scanner
(`EscapeFlags` bitset in `token.hpp`). -/
structure EscFlags where
  named : Bool := false
  hex : Bool := false
  uni : Bool := false
deriving DecidableEq, Repr

/-- `ScanContext::makeToken`: build a token covering
`[startOffset, pos)`; the length is truncated to 0xFFFF and a
`TokenTooLong` error is recorded if the actual length exceeds it. -/
def makeToken (s : LexState) (type : TokenType)
    (startOffset startLine startCol : Nat) : Token × LexState :=
  let sliceLen := if startOffset ≤ s.pos then min (s.pos - startOffset) 65535 else 0
  let s' := if 65535 < s.pos - startOffset then
      s.reportError .TokenTooLong startLine startCol startOffset
    else s
  (⟨type, s.buffer, startOffset, sliceLen, startOffset, sliceLen,
    startLine, startCol, false, false, false⟩, s')

/-- `ScanContext::makeUnknown`. -/
def makeUnknown (s : LexState) (startOffset startLine startCol : Nat) : Token × LexState :=
  makeToken s .TOKEN_UNKNOWN startOffset startLine startCol

/-- `Token::makeEof`: zero-length EOF token at the current location. -/
def makeEof (s : LexState) : Token :=
  ⟨.TOKEN_EOF, s.buffer, s.pos, 0, s.pos, 0, s.line, s.col, false, false, false⟩

/-- `std::isdigit` on a byte. -/
def isDigitByte (b : Nat) : Bool := decide (48 ≤ b ∧ b ≤ 57)

/-- `std::isxdigit` on a byte. -/
def isXdigitByte (b : Nat) : Bool :=
  decide ((48 ≤ b ∧ b ≤ 57) ∨ (97 ≤ b ∧ b ≤ 102) ∨ (65 ≤ b ∧ b ≤ 70))

/-- `utf8::isAsciiIdentStart`: ASCII letter or underscore. -/
def isAsciiIdentStart (b : Nat) : Bool :=
  decide ((97 ≤ b ∧ b ≤ 122) ∨ (65 ≤ b ∧ b ≤ 90) ∨ b = 95)

/-- `utf8::isAsciiIdentContinue`: identifier start or ASCII digit. -/
def isAsciiIdentContinue (b : Nat) : Bool :=
  isAsciiIdentStart b || isDigitByte b

/-- `IdentScanner::isUtf8Start`: lead byte in 0xC2..0xF4. -/
def isUtf8StartByte (b : Nat) : Bool := decide (194 ≤ b ∧ b ≤ 244)

/-- `utf8::charLength`: byte length of a UTF-8 sequence from its lead
byte, 0 for an invalid lead byte. -/
def charLength (b : Nat) : Nat :=
  if b &&& 128 = 0 then 1
  else if b &&& 224 = 192 then 2
  else if b &&& 240 = 224 then 3
  else if b &&& 248 = 240 then 4
  else 0

/-- Byte list of an ASCII string literal (used for concrete inputs and the
keyword table). -/
def ofStr (t : String) : List Nat := t.data.map Char.toNat

open LexState

/-- `NumberScanner::consumeDigits`: decimal digits and `_` separators. -/
def consumeDigitsGo : Nat → LexState → LexState
  | 0, s => s
  | n + 1, s =>
    match s.current with
    | none => s
    | some c =>
      if isDigitByte c then consumeDigitsGo n s.advance
      else if c = 95 then consumeDigitsGo n s.advance
      else s

/-- `NumberScanner::consumeDigits`, with the canonical fuel. -/
def consumeDigits (s : LexState) : LexState :=
  consumeDigitsGo (s.src.length - s.pos + 1) s

/-- `NumberScanner::consumeHexDigits`. -/
def consumeHexDigitsGo : Nat → LexState → LexState
  | 0, s => s
  | n + 1, s =>
    match s.current with
    | none => s
    | some c =>
      if isXdigitByte c then consumeHexDigitsGo n s.advance
      else if c = 95 then consumeHexDigitsGo n s.advance
      else s

/-- `NumberScanner::consumeHexDigits`, with the canonical fuel. -/
def consumeHexDigits (s : LexState) : LexState :=
  consumeHexDigitsGo (s.src.length - s.pos + 1) s

/-- `NumberScanner::consumeBinaryDigits`. -/
def consumeBinaryDigitsGo : Nat → LexState → LexState
  | 0, s => s
  | n + 1, s =>
    match s.current with
    | none => s
    | some c =>
      if c = 48 ∨ c = 49 then consumeBinaryDigitsGo n s.advance
      else if c = 95 then consumeBinaryDigitsGo n s.advance
      else s

/-- `NumberScanner::consumeBinaryDigits`, with the canonical fuel. -/
def consumeBinaryDigits (s : LexState) : LexState :=
  consumeBinaryDigitsGo (s.src.length - s.pos + 1) s

/-- `NumberScanner::consumeOctalDigits`. -/
def consumeOctalDigitsGo : Nat → LexState → LexState
  | 0, s => s
  | n + 1, s =>
    match s.current with
    | none => s
    | some c =>
      if 48 ≤ c ∧ c ≤ 55 then consumeOctalDigitsGo n s.advance
      else if c = 95 then consumeOctalDigitsGo n s.advance
      else s

/-- `NumberScanner::consumeOctalDigits`, with the canonical fuel. -/
def consumeOctalDigits (s : LexState) : LexState :=
  consumeOctalDigitsGo (s.src.length - s.pos + 1) s

/-- Digit run inside `NumberScanner::consumeSuffix` (plain digits only, no
separators). -/
def suffixDigitsGo : Nat → LexState → LexState
  | 0, s => s
  | n + 1, s =>
    match s.current with
    | none => s
    | some c => if isDigitByte c then suffixDigitsGo n s.advance else s

/-- `NumberScanner::consumeSuffix`: `u`/`i`/`f` followed by digits, or the
fixed-point suffixes `d` / `dec64`. -/
def consumeSuffix (s : LexState) : LexState :=
  match s.current with
  | none => s
  | some c =>
    if c = 117 ∨ c = 105 ∨ c = 102 then
      suffixDigitsGo (s.src.length - s.pos + 1) s.advance
    else if c = 100 then
      let s1 := s.advance
      match s1.current with
      | some 101 =>
        let s2 := s1.advance
        match s2.current with
        | some 99 =>
          let s3 := s2.advance
          match s3.current with
          | some 54 =>
            let s4 := s3.advance
            match s4.current with
            | some 52 => s4.advance
            | _ => s4
          | _ => s3
        | _ => s2
      | _ => s1
    else s

/-- Fraction step of `NumberScanner::scanDecimal`: consume the dot only
when the byte after it is a digit (the lookahead rule); returns whether a
fraction was consumed. -/
def scanDecimalDot (s : LexState) : Bool × LexState :=
  if s.check 46 then
    match s.peek 1 with
    | some d =>
      if isDigitByte d then (true, consumeDigits s.advance) else (false, s)
    | none => (false, s)
  else (false, s)

/-- Exponent step of `NumberScanner::scanDecimal`: on `e`/`E` consume the
marker, an optional sign, and a (possibly empty) digit run; returns whether
the literal is a float so far. -/
def scanDecimalExp (s : LexState) (isFloat1 : Bool) : Bool × LexState :=
  match s.current with
  | some c =>
    if c = 101 ∨ c = 69 then
      let s3 := s.advance
      let s4 :=
        match s3.current with
        | some sg => if sg = 43 ∨ sg = 45 then s3.advance else s3
        | none => s3
      (true, consumeDigits s4)
    else (isFloat1, s)
  | none => (isFloat1, s)

/-- `NumberScanner::scanDecimal`: integer part, optional fraction guarded
by a one-byte digit lookahead, optional exponent, optional suffix. -/
def scanDecimal (s : LexState) (startOffset startLine startCol : Nat) : Token × LexState :=
  let s1 := consumeDigits s
  let p := scanDecimalDot s1
  let q := scanDecimalExp p.2 p.1
  let s5 := q.2
  let isDecimal := s5.check 100
  let s6 := consumeSuffix s5
  let type :=
    if isDecimal then TokenType.LIT_DECIMAL
    else if q.1 then TokenType.LIT_FLOAT
    else TokenType.LIT_INT
  makeToken s6 type startOffset startLine startCol

/-- `NumberScanner::scanHexadecimal`. -/
def scanHexadecimal (s : LexState) (startOffset startLine startCol : Nat) : Token × LexState :=
  makeToken (consumeSuffix (consumeHexDigits (s.advanceN 2)))
    .LIT_INT startOffset startLine startCol

/-- `NumberScanner::scanBinary`. -/
def scanBinary (s : LexState) (startOffset startLine startCol : Nat) : Token × LexState :=
  makeToken (consumeSuffix (consumeBinaryDigits (s.advanceN 2)))
    .LIT_INT startOffset startLine startCol

/-- `NumberScanner::scanOctal`. -/
def scanOctal (s : LexState) (startOffset startLine startCol : Nat) : Token × LexState :=
  makeToken (consumeSuffix (consumeOctalDigits (s.advanceN 2)))
    .LIT_INT startOffset startLine startCol

/-- `NumberScanner::canScan`: current byte is an ASCII digit. -/
def NumberScanner.canScan (s : LexState) : Bool :=
  match s.current with
  | some c => isDigitByte c
  | none => false

/-- `NumberScanner::scan`: radix-prefix dispatch, else decimal. -/
def NumberScanner.scan (s : LexState) : Token × LexState :=
  match s.current with
  | none => makeUnknown s s.pos s.line s.col
  | some first =>
    if first = 48 then
      match s.peek 1 with
      | some second =>
        if second = 120 ∨ second = 88 then scanHexadecimal s s.pos s.line s.col
        else if second = 98 ∨ second = 66 then scanBinary s s.pos s.line s.col
        else if second = 111 ∨ second = 79 then scanOctal s s.pos s.line s.col
        else scanDecimal s s.pos s.line s.col
      | none => scanDecimal s s.pos s.line s.col
    else scanDecimal s s.pos s.line s.col

/-- `skipHexDigits` helper of the string scanner: at most `count` hex
digits. -/
def skipHexDigits (s : LexState) : Nat → LexState
  | 0 => s
  | n + 1 =>
    match s.current with
    | none => s
    | some c => if isXdigitByte c then skipHexDigits s.advance n else s

/-- `skipUnicodeEscape` helper of the string scanner: hex digits up to and
including a closing brace byte (125). -/
def skipUnicodeEscapeGo : Nat → LexState → LexState
  | 0, s => s
  | n + 1, s =>
    match s.current with
    | none => s
    | some c =>
      if c = 125 then s.advance
      else if isXdigitByte c then skipUnicodeEscapeGo n s.advance
      else s

/-- `skipUnicodeEscape`, with the canonical fuel. -/
def skipUnicodeEscape (s : LexState) : LexState :=
  skipUnicodeEscapeGo (s.src.length - s.pos + 1) s

/-- Body loop of `StringScanner::scanNormalString`: consume string
content, handling escapes, stopping at the closing quote, at an unescaped
newline (error, newline not consumed) or at end of input (error). -/
def scanNormalStringGo (startLine startCol startOffset : Nat) :
    Nat → LexState → EscFlags → EscFlags × LexState
  | 0, s, fl => (fl, s)
  | n + 1, s, fl =>
    match s.current with
    | none =>
      (fl, s.reportError .UnterminatedString startLine startCol startOffset)
    | some c =>
      if c = 34 then (fl, s.advance)
      else if c = 92 then
        let s1 := s.advance
        match s1.current with
        | none => scanNormalStringGo startLine startCol startOffset n s1 fl
        | some e =>
          if e = 110 ∨ e = 114 ∨ e = 116 ∨ e = 92 ∨ e = 34 ∨ e = 39 ∨ e = 48 then
            scanNormalStringGo startLine startCol startOffset n s1.advance
              { fl with named := true }
          else if e = 120 then
            scanNormalStringGo startLine startCol startOffset n
              (skipHexDigits s1.advance 2) { fl with hex := true }
          else if e = 117 then
            let s2 := s1.advance
            let s3 := if s2.check 123 then skipUnicodeEscape s2.advance else s2
            scanNormalStringGo startLine startCol startOffset n s3
              { fl with uni := true }
          else scanNormalStringGo startLine startCol startOffset n s1.advance fl
      else if c = 10 ∨ c = 13 then
        (fl, s.reportError .UnterminatedString startLine startCol startOffset)
      else scanNormalStringGo startLine startCol startOffset n s.advance fl

/-- `StringScanner::scanNormalString`. -/
def scanNormalString (s : LexState) (startOffset startLine startCol : Nat) : Token × LexState :=
  let s1 := s.advance
  let r := scanNormalStringGo startLine startCol startOffset
    (s1.src.length - s1.pos + 1) s1 {}
  let t := makeToken r.2 .LIT_STRING startOffset startLine startCol
  ({ t.1 with escNamed := r.1.named, escHex := r.1.hex, escUnicode := r.1.uni }, t.2)

/-- Opening-hash count loop of `StringScanner::scanRawString`. -/
def countHashesGo : Nat → LexState → Nat → Nat × LexState
  | 0, s, k => (k, s)
  | n + 1, s, k =>
    if s.check 35 then countHashesGo n s.advance (k + 1) else (k, s)

/-- Closing-hash loop of `StringScanner::scanRawString`: consume up to the
remaining number of hashes, returning how many were consumed. -/
def consumeEndHashes : Nat → LexState → Nat × LexState
  | 0, s => (0, s)
  | n + 1, s =>
    if s.check 35 then
      let r := consumeEndHashes n s.advance
      (r.1 + 1, r.2)
    else (0, s)

/-- Body loop of `StringScanner::scanRawString`: content until a quote
followed by exactly `hashCount` hashes; a quote with fewer hashes is
content. -/
def scanRawStringGo (hashCount : Nat) : Nat → LexState → LexState
  | 0, s => s
  | n + 1, s =>
    match s.current with
    | none => s
    | some c =>
      if c = 34 then
        let s1 := s.advance
        let r := consumeEndHashes hashCount s1
        if r.1 = hashCount then r.2
        else scanRawStringGo hashCount n r.2
      else scanRawStringGo hashCount n s.advance

/-- `StringScanner::scanRawString`. -/
def scanRawString (s : LexState) (startOffset startLine startCol : Nat) : Token × LexState :=
  let s1 := s.advance
  let ch := countHashesGo (s1.src.length - s1.pos + 1) s1 0
  let s2 := ch.2
  if s2.check 34 then
    let s3 := scanRawStringGo ch.1 (s2.advance.src.length - s2.advance.pos + 1) s2.advance
    makeToken s3 .LIT_RAW_STRING startOffset startLine startCol
  else makeUnknown s2 startOffset startLine startCol

/-- Body loop of `StringScanner::scanTexString`: verbatim content, only a
backslash-quote pair is recognised as an escape. -/
def scanTexStringGo : Nat → LexState → EscFlags → EscFlags × LexState
  | 0, s, fl => (fl, s)
  | n + 1, s, fl =>
    match s.current with
    | none => (fl, s)
    | some c =>
      if c = 34 then (fl, s.advance)
      else if c = 92 then
        let s1 := s.advance
        match s1.current with
        | some 34 => scanTexStringGo n s1.advance { fl with named := true }
        | _ => scanTexStringGo n s1 fl
      else scanTexStringGo n s.advance fl

/-- `StringScanner::scanTexString`. -/
def scanTexString (s : LexState) (startOffset startLine startCol : Nat) : Token × LexState :=
  let s1 := s.advance
  if s1.check 34 then
    let r := scanTexStringGo (s1.advance.src.length - s1.advance.pos + 1) s1.advance {}
    let t := makeToken r.2 .LIT_TEX_STRING startOffset startLine startCol
    ({ t.1 with escNamed := r.1.named, escHex := r.1.hex, escUnicode := r.1.uni }, t.2)
  else makeUnknown s1 startOffset startLine startCol

/-- `StringScanner::canScan`: a quote, `r` followed by quote or hash, or
`t` followed by quote. -/
def StringScanner.canScan (s : LexState) : Bool :=
  match s.current with
  | none => false
  | some c =>
    if c = 34 then true
    else if c = 114 then
      match s.peek 1 with
      | some n => decide (n = 34 ∨ n = 35)
      | none => false
    else if c = 116 then decide (s.peek 1 = some 34)
    else false

/-- `StringScanner::scan`: dispatch on the lead byte. -/
def StringScanner.scan (s : LexState) : Token × LexState :=
  match s.current with
  | none => makeUnknown s s.pos s.line s.col
  | some c =>
    if c = 114 then scanRawString s s.pos s.line s.col
    else if c = 116 then scanTexString s s.pos s.line s.col
    else scanNormalString s s.pos s.line s.col

/-- Continuation-byte check of `IdentScanner::consumeUtf8Char`:
bytes 1..len-1 after the cursor exist and are UTF-8 continuation bytes. -/
def contBytesOk (s : LexState) (len : Nat) : Bool :=
  (List.range (len - 1)).all fun i =>
    match s.peek (i + 1) with
    | some b => isContinuationByte b
    | none => false

/-- `IdentScanner::consumeUtf8Char`: consume one well-formed multi-byte
sequence, or fail without advancing. -/
def consumeUtf8Char (s : LexState) : Bool × LexState :=
  match s.current with
  | none => (false, s)
  | some c =>
    let len := charLength c
    if len = 0 then (false, s)
    else if contBytesOk s len then (true, s.advanceN len) else (false, s)

/-- Keyword table of `token.cpp` (`kKeywordMap`), as a key/kind list (the
`unordered_map` has exactly these key/value pairs). -/
def kKeywordMap : List (List Nat × TokenType) :=
  [(ofStr "let", .KW_LET), (ofStr "var", .KW_VAR), (ofStr "fn", .KW_FN),
   (ofStr "struct", .KW_STRUCT), (ofStr "enum", .KW_ENUM), (ofStr "type", .KW_TYPE),
   (ofStr "impl", .KW_IMPL), (ofStr "trait", .KW_TRAIT), (ofStr "return", .KW_RETURN),
   (ofStr "if", .KW_IF), (ofStr "else", .KW_ELSE), (ofStr "while", .KW_WHILE),
   (ofStr "for", .KW_FOR), (ofStr "in", .KW_IN), (ofStr "break", .KW_BREAK),
   (ofStr "continue", .KW_CONTINUE), (ofStr "match", .KW_MATCH),
   (ofStr "import", .KW_IMPORT), (ofStr "as", .KW_AS),
   (ofStr "true", .LIT_TRUE), (ofStr "false", .LIT_FALSE), (ofStr "null", .LIT_NULL)]

/-- `lookupKeyword` of `token.cpp`: exact-match lookup in the keyword
table. -/
def lookupKeyword (w : List Nat) : Option TokenType :=
  (kKeywordMap.find? fun e => e.1 = w).map fun e => e.2

/-- Continuation loop of `IdentScanner::scan`: ASCII identifier bytes and
well-formed multi-byte sequences; a malformed sequence ends the
identifier silently. -/
def identGo : Nat → LexState → LexState
  | 0, s => s
  | n + 1, s =>
    match s.current with
    | none => s
    | some c =>
      if isAsciiIdentContinue c then identGo n s.advance
      else if isUtf8StartByte c then
        let r := consumeUtf8Char s
        if r.1 then identGo n r.2 else s
      else s

/-- `IdentScanner::canScan`: ASCII identifier start or UTF-8 lead byte. -/
def IdentScanner.canScan (s : LexState) : Bool :=
  match s.current with
  | none => false
  | some c => isAsciiIdentStart c || isUtf8StartByte c

/-- `IdentScanner::scan`: consume the identifier, then classify it via the
keyword table. -/
def IdentScanner.scan (s : LexState) : Token × LexState :=
  let startOffset := s.pos
  let startLine := s.line
  let startCol := s.col
  match s.current with
  | none => makeUnknown s startOffset startLine startCol
  | some first =>
    if isUtf8StartByte first then
      let r := consumeUtf8Char s
      if r.1 then
        let s1 := identGo (r.2.src.length - r.2.pos + 1) r.2
        let type := (lookupKeyword (s1.textFrom startOffset)).getD .IDENTIFIER
        makeToken s1 type startOffset startLine startCol
      else makeUnknown r.2.advance startOffset startLine startCol
    else
      let s1 := identGo (s.advance.src.length - s.advance.pos + 1) s.advance
      let type := (lookupKeyword (s1.textFrom startOffset)).getD .IDENTIFIER
      makeToken s1 type startOffset startLine startCol

/-- `kSingleCharTokens` of `char_scanner.cpp`, as a key/kind list. -/
def kSingleCharTokens : List (Nat × TokenType) :=
  [(40, .DELIM_LPAREN), (41, .DELIM_RPAREN), (123, .DELIM_LBRACE), (125, .DELIM_RBRACE),
   (91, .DELIM_LBRACKET), (93, .DELIM_RBRACKET), (44, .DELIM_COMMA),
   (59, .DELIM_SEMICOLON), (95, .DELIM_UNDERSCORE),
   (64, .OP_AT), (35, .OP_HASH), (36, .OP_DOLLAR), (92, .OP_BACKSLASH)]

/-- Single-byte table lookup. -/
def singleCharLookup (c : Nat) : Option TokenType :=
  (kSingleCharTokens.find? fun e => e.1 = c).map fun e => e.2

/-- `kPotentialMultiCharStart` of `char_scanner.cpp`: single-byte fallback
kinds for bytes that can start a multi-byte operator, as a key/kind list. -/
def kPotentialMultiCharStart : List (Nat × TokenType) :=
  [(43, .OP_PLUS), (45, .OP_MINUS), (42, .OP_STAR), (47, .OP_SLASH), (37, .OP_PERCENT),
   (38, .OP_BIT_AND), (124, .OP_BIT_OR), (94, .OP_BIT_XOR), (126, .OP_BIT_NOT),
   (60, .OP_LT), (62, .OP_GT), (61, .OP_ASSIGN), (33, .OP_LOGICAL_NOT),
   (46, .OP_DOT), (58, .DELIM_COLON)]

/-- Multi-start fallback table lookup. -/
def multiStartLookup (c : Nat) : Option TokenType :=
  (kPotentialMultiCharStart.find? fun e => e.1 = c).map fun e => e.2

/-- `kDoubleCharTokens` of `char_scanner.cpp`, as a key/kind list (the
`unordered_map` has exactly these key/value pairs). -/
def kDoubleCharTokens : List ((Nat × Nat) × TokenType) :=
  [((61, 61), .OP_EQ), ((33, 61), .OP_NE), ((60, 61), .OP_LE), ((62, 61), .OP_GE),
   ((38, 38), .OP_LOGICAL_AND), ((124, 124), .OP_LOGICAL_OR),
   ((43, 61), .OP_PLUS_ASSIGN), ((45, 61), .OP_MINUS_ASSIGN),
   ((42, 61), .OP_STAR_ASSIGN), ((47, 61), .OP_SLASH_ASSIGN),
   ((37, 61), .OP_PERCENT_ASSIGN), ((38, 61), .OP_AND_ASSIGN),
   ((124, 61), .OP_OR_ASSIGN), ((94, 61), .OP_XOR_ASSIGN),
   ((60, 60), .OP_BIT_SHL), ((62, 62), .OP_BIT_SHR),
   ((45, 62), .OP_ARROW), ((61, 62), .OP_FAT_ARROW),
   ((46, 46), .OP_DOT_DOT), ((58, 58), .OP_COLON_COLON)]

/-- Two-byte table lookup. -/
def doubleCharLookup (a b : Nat) : Option TokenType :=
  (kDoubleCharTokens.find? fun e => e.1 = (a, b)).map fun e => e.2

/-- `kTripleCharTokens` of `char_scanner.cpp`. -/
def kTripleCharTokens : List ((Nat × Nat × Nat) × TokenType) :=
  [((60, 60, 61), .OP_SHL_ASSIGN), ((62, 62, 61), .OP_SHR_ASSIGN),
   ((46, 46, 61), .OP_DOT_DOT_EQ)]

/-- Three-byte table lookup. -/
def tripleCharLookup (a b c : Nat) : Option TokenType :=
  (kTripleCharTokens.find? fun e => e.1 = (a, b, c)).map fun e => e.2

/-- `CharScanner::canScan`. -/
def CharScanner.canScan (s : LexState) : Bool :=
  match s.current with
  | none => false
  | some c => (singleCharLookup c).isSome || (multiStartLookup c).isSome

/-- `CharScanner::scan`: greedy longest match, 3 bytes, then 2, then 1. -/
def CharScanner.scan (s : LexState) : Token × LexState :=
  let startOffset := s.pos
  let startLine := s.line
  let startCol := s.col
  match s.current with
  | none => makeUnknown s startOffset startLine startCol
  | some first =>
    let tripleRes : Option TokenType :=
      match s.peek 1, s.peek 2 with
      | some b, some c => tripleCharLookup first b c
      | _, _ => none
    match tripleRes with
    | some t => makeToken (s.advanceN 3) t startOffset startLine startCol
    | none =>
      let doubleRes : Option TokenType :=
        match s.peek 1 with
        | some b => doubleCharLookup first b
        | none => none
      match doubleRes with
      | some t => makeToken (s.advanceN 2) t startOffset startLine startCol
      | none =>
        match singleCharLookup first with
        | some t => makeToken s.advance t startOffset startLine startCol
        | none =>
          match multiStartLookup first with
          | some t => makeToken s.advance t startOffset startLine startCol
          | none => makeUnknown s.advance startOffset startLine startCol

/-- `CommentScanner::canScan`: slash followed by slash or star. -/
def CommentScanner.canScan (s : LexState) : Bool :=
  match s.current with
  | some 47 =>
    match s.peek 1 with
    | some n => decide (n = 47 ∨ n = 42)
    | none => false
  | _ => false

/-- Body loop of `CommentScanner::scanLineComment`: up to but not
including the newline. -/
def lineCommentGo : Nat → LexState → LexState
  | 0, s => s
  | n + 1, s =>
    match s.current with
    | none => s
    | some c => if c = 10 ∨ c = 13 then s else lineCommentGo n s.advance

/-- `CommentScanner::scanLineComment`. -/
def scanLineComment (s : LexState) (startOffset startLine startCol : Nat) : Token × LexState :=
  let s1 := s.advanceN 2
  let d : Bool × LexState := if s1.check 47 then (true, s1.advance) else (false, s1)
  let s2 := lineCommentGo (d.2.src.length - d.2.pos + 1) d.2
  makeToken s2 (if d.1 then .COMMENT_DOC else .COMMENT_LINE) startOffset startLine startCol

/-- Body loop of `CommentScanner::scanBlockComment`: first star-slash
closes the comment (no nesting); end of input records an error. -/
def blockCommentGo (startLine startCol startOffset : Nat) : Nat → LexState → LexState
  | 0, s => s
  | n + 1, s =>
    match s.current with
    | none =>
      s.reportError .UnterminatedBlockComment startLine startCol startOffset
    | some c =>
      if c = 42 ∧ s.peek 1 = some 47 then s.advanceN 2
      else blockCommentGo startLine startCol startOffset n s.advance

/-- `CommentScanner::scanBlockComment`. -/
def scanBlockComment (s : LexState) (startOffset startLine startCol : Nat) : Token × LexState :=
  let s1 := s.advanceN 2
  let d : Bool × LexState :=
    match s1.current, s1.peek 1 with
    | some 42, some x => if x = 47 then (false, s1) else (true, s1.advance)
    | _, _ => (false, s1)
  let s2 := blockCommentGo startLine startCol startOffset
    (d.2.src.length - d.2.pos + 1) d.2
  makeToken s2 (if d.1 then .COMMENT_DOC else .COMMENT_BLOCK) startOffset startLine startCol

/-- `CommentScanner::scan`. -/
def CommentScanner.scan (s : LexState) : Token × LexState :=
  match s.peek 1 with
  | none => makeUnknown s s.pos s.line s.col
  | some n =>
    if n = 47 then scanLineComment s s.pos s.line s.col
    else if n = 42 then scanBlockComment s s.pos s.line s.col
    else makeUnknown s s.pos s.line s.col

/-- `Lexer::skipWhitespace`: spaces, tabs, newlines, carriage returns. -/
def skipWhitespaceGo : Nat → LexState → LexState
  | 0, s => s
  | n + 1, s =>
    match s.current with
    | none => s
    | some c =>
      if c = 32 ∨ c = 9 ∨ c = 10 ∨ c = 13 then skipWhitespaceGo n s.advance else s

/-- `Lexer::skipWhitespace`, with the canonical fuel. -/
def skipWhitespace (s : LexState) : LexState :=
  skipWhitespaceGo (s.src.length - s.pos + 1) s

/-- `Lexer::skipWhitespaceAndComments`: alternate whitespace runs and
comments until neither applies. -/
def skipWSCommentsGo : Nat → LexState → LexState
  | 0, s => s
  | n + 1, s =>
    let s1 := skipWhitespace s
    if CommentScanner.canScan s1 then skipWSCommentsGo n (CommentScanner.scan s1).2
    else s1

/-- `Lexer::skipWhitespaceAndComments`, with the canonical fuel. -/
def skipWhitespaceAndComments (s : LexState) : LexState :=
  skipWSCommentsGo (s.src.length - s.pos + 1) s

/-- `Lexer::scanUnknown`: record an invalid-character error, advance one
byte, and produce an unknown token. -/
def scanUnknown (s : LexState) : Token × LexState :=
  let startOffset := s.pos
  let startLine := s.line
  let startCol := s.col
  match s.current with
  | none => makeUnknown s startOffset startLine startCol
  | some _ =>
    let s1 := s.reportError .InvalidCharacter startLine startCol startOffset
    makeUnknown s1.advance startOffset startLine startCol

/-- `Lexer::scanToken`: fixed scanner priority order — string, identifier,
number, operator/delimiter, unknown fallback. -/
def scanToken (s : LexState) : Token × LexState :=
  if StringScanner.canScan s then StringScanner.scan s
  else if IdentScanner.canScan s then IdentScanner.scan s
  else if NumberScanner.canScan s then NumberScanner.scan s
  else if CharScanner.canScan s then CharScanner.scan s
  else scanUnknown s

/-- `Lexer::nextToken`: skip whitespace and comments, return EOF at the
end of input, else scan one token. -/
def nextToken (s : LexState) : Token × LexState :=
  let s1 := skipWhitespaceAndComments s
  if s1.isAtEnd then (makeEof s1, s1) else scanToken s1

/-- Loop of `Lexer::tokenize`: collect tokens until and including EOF;
also returns the final lexer state (whose error list is what
`Lexer::errors()` exposes). -/
def tokenizeGo : Nat → LexState → List Token × LexState
  | 0, s => ([], s)
  | n + 1, s =>
    let r := nextToken s
    if r.1.type = .TOKEN_EOF then ([r.1], r.2)
    else
      let rest := tokenizeGo n r.2
      (r.1 :: rest.1, rest.2)

/-- `Lexer::tokenize`, with fuel sufficient for the whole input (one
non-EOF token consumes at least one byte). -/
def tokenize (s : LexState) : List Token × LexState :=
  tokenizeGo (s.src.length - s.pos + 2) s

/-- Fresh lexer over a byte buffer (buffer handle 1, cursor at offset 0,
line 1, column 1, no errors). -/
def initLexer (src : List Nat) : LexState :=
  ⟨src, 1, 0, 1, 1, []⟩

/-- Tokenize a byte buffer from scratch. -/
def tokenizeBytes (src : List Nat) : List Token × LexState :=
  tokenize (initLexer src)

/-- One buffer of the Source Arena (`SourceManager::Buffer`): owned text,
a filename, and the synthetic-buffer bookkeeping. -/
structure SMBuffer where
  source : List Nat
  filename : String
  isSynthetic : Bool := false
  parentBuffer : Option Nat := none
deriving DecidableEq, Repr

/-- The Source Arena (`SourceManager`): an append-only list of buffers.
Handle 0 is the invalid sentinel; handle `i` addresses `buffers[i-1]`. -/
structure SourceManager where
  buffers : List SMBuffer
deriving DecidableEq, Repr

namespace SourceManager

/-- `BufferID::isValid` combined with the bound check every accessor
performs: a usable handle is non-zero and at most the buffer count. -/
def validHandle (sm : SourceManager) (id : Nat) : Bool :=
  decide (id ≠ 0 ∧ id ≤ sm.buffers.length)

/-- `SourceManager::getSource`: the buffer text, or an empty view for an
invalid handle. -/
def getSource (sm : SourceManager) (id : Nat) : List Nat :=
  if sm.validHandle id then
    match sm.buffers[id - 1]? with
    | some b => b.source
    | none => []
  else []

/-- `SourceManager::slice`: a view of `length` bytes at `offset`, clamped
to the buffer, empty for an invalid handle or an out-of-range offset. -/
def slice (sm : SourceManager) (id : Nat) (offset length : Nat) : List Nat :=
  if sm.validHandle id then
    match sm.buffers[id - 1]? with
    | some b =>
      if b.source.length ≤ offset then []
      else (b.source.drop offset).take (min length (b.source.length - offset))
    | none => []
  else []

/-- `SourceManager::getFilename`. -/
def getFilename (sm : SourceManager) (id : Nat) : String :=
  if sm.validHandle id then
    match sm.buffers[id - 1]? with
    | some b => b.filename
    | none => ""
  else ""

/-- `SourceManager::Buffer::buildLineOffsets`: offset 0 plus the offset
after every newline byte. -/
def lineOffsets (src : List Nat) : List Nat :=
  0 :: (List.range src.length).filterMap fun i =>
    if src[i]? = some 10 then some (i + 1) else none

/-- `SourceManager::getLineContent`: the 1-based line's bytes without the
trailing newline (and without a preceding carriage return), empty for an
invalid handle or an out-of-range line number. -/
def getLineContent (sm : SourceManager) (id : Nat) (lineNum : Nat) : List Nat :=
  if sm.validHandle id ∧ lineNum ≠ 0 then
    match sm.buffers[id - 1]? with
    | some b =>
      let offs := lineOffsets b.source
      let lineIndex := lineNum - 1
      match offs[lineIndex]? with
      | none => []
      | some lineStart =>
        let lineEnd :=
          match offs[lineIndex + 1]? with
          | some e =>
            let e1 := if lineStart < e ∧ b.source[e - 1]? = some 10 then e - 1 else e
            if lineStart < e1 ∧ b.source[e1 - 1]? = some 13 then e1 - 1 else e1
          | none => b.source.length
        (b.source.drop lineStart).take (lineEnd - lineStart)
    | none => []
  else []

end SourceManager

/-- Diagnostic severity (`enum class Level` in `diagnostic.hpp`). -/
inductive Level where
  | Note
  | Help
  | Warning
  | Error
  | Fatal
  | Bug
deriving DecidableEq, Repr

/-- `struct ErrorCode` in `error_code.hpp`: category and 4-digit code. -/
structure ErrorCode where
  category : Nat
  code : Nat
deriving DecidableEq, Repr

/-- `struct Span` in `span.hpp`. -/
structure DiagSpan where
  fileId : Nat
  startOffset : Nat
  endOffset : Nat
deriving DecidableEq, Repr

/-- `struct LabeledSpan` in `span.hpp` (label text omitted). -/
structure LabeledSpan where
  span : DiagSpan
  isPrimary : Bool
deriving DecidableEq, Repr

/-- `struct Diagnostic` (the parts `DiagContext::emit` inspects): level,
message text, optional error code, and the labeled spans. -/
structure Diagnostic where
  level : Level
  message : String
  code : Option ErrorCode
  spans : List LabeledSpan
deriving DecidableEq, Repr

/-- `MultiSpan::primary` followed by `.span`: the first span marked
primary. -/
def Diagnostic.primarySpan (d : Diagnostic) : Option DiagSpan :=
  (d.spans.find? fun ls => ls.isPrimary).map fun ls => ls.span

/-- `struct DiagConfig`. -/
structure DiagConfig where
  deduplicate : Bool := true
  maxErrors : Nat := 0
  treatWarningsAsErrors : Bool := false
deriving DecidableEq, Repr

/-- The hash functions the C++ borrows from the standard library
(`std::hash` over `string_view` and `uint32_t`); they are
implementation-defined, so the model takes them as parameters.  Outputs
are wrapped to the `size_t` range by the combinator. -/
structure HashFns where
  hashStr : String → Nat
  hashU32 : Nat → Nat

/-- `size_t` wrap-around. -/
def wrap64 (x : Nat) : Nat := x % (2 ^ 64)

/-- The `combineHash` lambda inside `computeDiagnosticHash`:
`hash XOR (value + 0x9e3779b9 + (hash shl 6) + (hash shr 2))`, in
`size_t` arithmetic. -/
def combineHash (hash value : Nat) : Nat :=
  hash ^^^ wrap64 (wrap64 value + 2654435769 + wrap64 (hash * 64) + hash / 4)

/-- `ErrorCode::hash`: `std::hash` of `(category shl 16) OR code` as a
`uint32_t`. -/
def ErrorCode.hashOf (h : HashFns) (ec : ErrorCode) : Nat :=
  h.hashU32 (((ec.category <<< 16) ||| ec.code) % (2 ^ 32))

/-- `computeDiagnosticHash` in `diag_context.cpp`: combines the message
hash, the error-code hash when present, and the primary span's file id and
start offset when present. -/
def computeDiagnosticHash (h : HashFns) (d : Diagnostic) : Nat :=
  let h1 := combineHash 0 (h.hashStr d.message)
  let h2 :=
    match d.code with
    | some c => combineHash h1 (ErrorCode.hashOf h c)
    | none => h1
  match d.primarySpan with
  | some sp => combineHash (combineHash h2 (h.hashU32 sp.fileId)) (h.hashU32 sp.startOffset)
  | none => h2

/-- Mutable state of a `DiagContext`: the running counters, the dedup
hash set, and the list of diagnostics forwarded to the emitter (one entry
per `Emitter::emit` invocation). -/
structure DiagState where
  errorCount : Nat := 0
  warningCount : Nat := 0
  noteCount : Nat := 0
  hadFatal : Bool := false
  uniqueErrorCodes : List ErrorCode := []
  seenHashes : List Nat := []
  emitted : List Diagnostic := []
deriving DecidableEq, Repr

/-- `std::set::insert`: add the code if it is not already present. -/
def insertCode (codes : List ErrorCode) (c : Option ErrorCode) : List ErrorCode :=
  match c with
  | none => codes
  | some ec => if ec ∈ codes then codes else codes ++ [ec]

/-- Counter/threshold/forward tail of `DiagContext::emit` (everything
after the dedup check): update the statistics for the diagnostic's level,
then suppress forwarding when a positive max-error threshold is exceeded,
else forward to the emitter. -/
def emitCore (cfg : DiagConfig) (st : DiagState) (d : Diagnostic) : DiagState :=
  let st1 :=
    match d.level with
    | .Error => { st with errorCount := st.errorCount + 1,
                          uniqueErrorCodes := insertCode st.uniqueErrorCodes d.code }
    | .Bug => { st with errorCount := st.errorCount + 1,
                        uniqueErrorCodes := insertCode st.uniqueErrorCodes d.code }
    | .Fatal => { st with errorCount := st.errorCount + 1, hadFatal := true,
                          uniqueErrorCodes := insertCode st.uniqueErrorCodes d.code }
    | .Warning => { st with warningCount := st.warningCount + 1 }
    | .Note => { st with noteCount := st.noteCount + 1 }
    | .Help => { st with noteCount := st.noteCount + 1 }
  if 0 < cfg.maxErrors ∧ cfg.maxErrors < st1.errorCount then st1
  else { st1 with emitted := st1.emitted ++ [d] }

/-- Warning-promotion step (a) of `DiagContext::emit`: under
treat-warnings-as-errors a Warning becomes an Error. -/
def applyWerror (cfg : DiagConfig) (d : Diagnostic) : Diagnostic :=
  if cfg.treatWarningsAsErrors ∧ d.level = .Warning then
    { d with level := .Error }
  else d

/-- `DiagContext::emit`: Warning promotion under treat-warnings-as-errors,
then hash-based deduplication, then counters/threshold/forwarding. -/
def emit (cfg : DiagConfig) (h : HashFns) (st : DiagState) (d : Diagnostic) : DiagState :=
  let d1 := applyWerror cfg d
  if cfg.deduplicate then
    let hv := computeDiagnosticHash h d1
    if hv ∈ st.seenHashes then st
    else emitCore cfg { st with seenHashes := st.seenHashes ++ [hv] } d1
  else emitCore cfg st d1

/-! ### Cursor bookkeeping lemmas -/

theorem current_eq_some_iff {s : LexState} {c : Nat} :
    s.current = some c ↔ ∃ h : s.pos < s.src.length, s.src[s.pos] = c := by
  simp [LexState.current, List.getElem?_eq_some]

theorem pos_lt_of_current {s : LexState} {c : Nat} (h : s.current = some c) :
    s.pos < s.src.length :=
  (current_eq_some_iff.mp h).1

theorem current_eq_none_iff {s : LexState} :
    s.current = none ↔ s.src.length ≤ s.pos := by
  simp [LexState.current, List.getElem?_eq_none_iff]

theorem advance_of_ge {s : LexState} (h : s.src.length ≤ s.pos) :
    s.advance = s := by
  unfold LexState.advance
  have : s.src[s.pos]? = none := by simp [List.getElem?_eq_none_iff, h]
  simp [this]

theorem advance_src (s : LexState) : s.advance.src = s.src := by
  unfold LexState.advance
  rcases h : s.src[s.pos]? with _ | ch
  · rfl
  · dsimp only
    split_ifs <;> rfl

theorem advance_buffer (s : LexState) : s.advance.buffer = s.buffer := by
  unfold LexState.advance
  rcases h : s.src[s.pos]? with _ | ch
  · rfl
  · dsimp only
    split_ifs <;> rfl

theorem advance_errors (s : LexState) : s.advance.errors = s.errors := by
  unfold LexState.advance
  rcases h : s.src[s.pos]? with _ | ch
  · rfl
  · dsimp only
    split_ifs <;> rfl

theorem advance_pos_of_lt {s : LexState} (h : s.pos < s.src.length) :
    s.advance.pos = s.pos + 1 := by
  unfold LexState.advance
  rcases hc : s.src[s.pos]? with _ | ch
  · exact absurd hc (by simp [List.getElem?_eq_none_iff]; omega)
  · dsimp only
    split_ifs <;> rfl

theorem pos_le_advance (s : LexState) : s.pos ≤ s.advance.pos := by
  by_cases h : s.pos < s.src.length
  · rw [advance_pos_of_lt h]; omega
  · rw [advance_of_ge (by omega)]

theorem advance_pos_le (s : LexState) : s.advance.pos ≤ s.pos + 1 := by
  by_cases h : s.pos < s.src.length
  · rw [advance_pos_of_lt h]
  · rw [advance_of_ge (by omega)]; omega

theorem advanceN_src (s : LexState) (n : Nat) : (s.advanceN n).src = s.src := by
  induction n generalizing s with
  | zero => rfl
  | succ n ih =>
    unfold LexState.advanceN
    split_ifs with h
    · rw [ih, advance_src]
    · rfl

theorem advanceN_buffer (s : LexState) (n : Nat) : (s.advanceN n).buffer = s.buffer := by
  induction n generalizing s with
  | zero => rfl
  | succ n ih =>
    unfold LexState.advanceN
    split_ifs with h
    · rw [ih, advance_buffer]
    · rfl

theorem advanceN_errors (s : LexState) (n : Nat) : (s.advanceN n).errors = s.errors := by
  induction n generalizing s with
  | zero => rfl
  | succ n ih =>
    unfold LexState.advanceN
    split_ifs with h
    · rw [ih, advance_errors]
    · rfl

theorem pos_le_advanceN (s : LexState) (n : Nat) : s.pos ≤ (s.advanceN n).pos := by
  induction n generalizing s with
  | zero => exact le_refl _
  | succ n ih =>
    unfold LexState.advanceN
    split_ifs with h
    · exact le_trans (pos_le_advance s) (ih s.advance)
    · exact le_refl _

theorem pos_lt_advanceN {s : LexState} {n : Nat} (hn : 0 < n)
    (h : s.pos < s.src.length) : s.pos < (s.advanceN n).pos := by
  cases n with
  | zero => omega
  | succ n =>
    unfold LexState.advanceN
    rw [if_pos h]
    calc s.pos < s.advance.pos := by rw [advance_pos_of_lt h]; omega
      _ ≤ (s.advance.advanceN n).pos := pos_le_advanceN _ _

theorem reportError_src (s : LexState) (c : LexerErrorCode) (a b o : Nat) :
    (s.reportError c a b o).src = s.src := rfl

theorem reportError_pos (s : LexState) (c : LexerErrorCode) (a b o : Nat) :
    (s.reportError c a b o).pos = s.pos := rfl

theorem makeToken_snd_src (s : LexState) (ty : TokenType) (a b c : Nat) :
    (makeToken s ty a b c).2.src = s.src := by
  unfold makeToken
  dsimp only
  split_ifs <;> rfl

theorem makeToken_snd_pos (s : LexState) (ty : TokenType) (a b c : Nat) :
    (makeToken s ty a b c).2.pos = s.pos := by
  unfold makeToken
  dsimp only
  split_ifs <;> rfl

theorem makeUnknown_snd_src (s : LexState) (a b c : Nat) :
    (makeUnknown s a b c).2.src = s.src := makeToken_snd_src ..

theorem makeUnknown_snd_pos (s : LexState) (a b c : Nat) :
    (makeUnknown s a b c).2.pos = s.pos := makeToken_snd_pos ..

/-! ### Loop invariants: every scanning loop preserves the source buffer
and never moves the cursor backwards. -/

theorem consumeDigitsGo_spec :
    ∀ n s, (consumeDigitsGo n s).src = s.src ∧ s.pos ≤ (consumeDigitsGo n s).pos := by
  intro n
  induction n with
  | zero => intro s; exact ⟨rfl, le_refl _⟩
  | succ n ih =>
    intro s
    unfold consumeDigitsGo
    split
    · exact ⟨rfl, le_refl _⟩
    · split_ifs <;>
        first
        | exact ⟨rfl, le_refl _⟩
        | exact ⟨(ih _).1.trans (advance_src _), le_trans (pos_le_advance _) (ih _).2⟩

theorem consumeHexDigitsGo_spec :
    ∀ n s, (consumeHexDigitsGo n s).src = s.src ∧ s.pos ≤ (consumeHexDigitsGo n s).pos := by
  intro n
  induction n with
  | zero => intro s; exact ⟨rfl, le_refl _⟩
  | succ n ih =>
    intro s
    unfold consumeHexDigitsGo
    split
    · exact ⟨rfl, le_refl _⟩
    · split_ifs <;>
        first
        | exact ⟨rfl, le_refl _⟩
        | exact ⟨(ih _).1.trans (advance_src _), le_trans (pos_le_advance _) (ih _).2⟩

theorem consumeBinaryDigitsGo_spec :
    ∀ n s, (consumeBinaryDigitsGo n s).src = s.src ∧ s.pos ≤ (consumeBinaryDigitsGo n s).pos := by
  intro n
  induction n with
  | zero => intro s; exact ⟨rfl, le_refl _⟩
  | succ n ih =>
    intro s
    unfold consumeBinaryDigitsGo
    split
    · exact ⟨rfl, le_refl _⟩
    · split_ifs <;>
        first
        | exact ⟨rfl, le_refl _⟩
        | exact ⟨(ih _).1.trans (advance_src _), le_trans (pos_le_advance _) (ih _).2⟩

theorem consumeOctalDigitsGo_spec :
    ∀ n s, (consumeOctalDigitsGo n s).src = s.src ∧ s.pos ≤ (consumeOctalDigitsGo n s).pos := by
  intro n
  induction n with
  | zero => intro s; exact ⟨rfl, le_refl _⟩
  | succ n ih =>
    intro s
    unfold consumeOctalDigitsGo
    split
    · exact ⟨rfl, le_refl _⟩
    · split_ifs <;>
        first
        | exact ⟨rfl, le_refl _⟩
        | exact ⟨(ih _).1.trans (advance_src _), le_trans (pos_le_advance _) (ih _).2⟩

theorem suffixDigitsGo_spec :
    ∀ n s, (suffixDigitsGo n s).src = s.src ∧ s.pos ≤ (suffixDigitsGo n s).pos := by
  intro n
  induction n with
  | zero => intro s; exact ⟨rfl, le_refl _⟩
  | succ n ih =>
    intro s
    unfold suffixDigitsGo
    split
    · exact ⟨rfl, le_refl _⟩
    · split_ifs <;>
        first
        | exact ⟨rfl, le_refl _⟩
        | exact ⟨(ih _).1.trans (advance_src _), le_trans (pos_le_advance _) (ih _).2⟩

theorem consumeSuffix_spec (s : LexState) :
    (consumeSuffix s).src = s.src ∧ s.pos ≤ (consumeSuffix s).pos := by
  unfold consumeSuffix
  split
  · exact ⟨rfl, le_refl _⟩
  · split_ifs
    · exact ⟨(suffixDigitsGo_spec _ _).1.trans (advance_src _),
        le_trans (pos_le_advance _) (suffixDigitsGo_spec _ _).2⟩
    · dsimp only
      split
      · split
        · split
          · split
            · exact ⟨(advance_src _).trans ((advance_src _).trans ((advance_src _).trans
                ((advance_src _).trans (advance_src _)))),
                le_trans (pos_le_advance _) (le_trans (pos_le_advance _)
                  (le_trans (pos_le_advance _)
                    (le_trans (pos_le_advance _) (pos_le_advance _))))⟩
            · exact ⟨(advance_src _).trans ((advance_src _).trans
                ((advance_src _).trans (advance_src _))),
                le_trans (pos_le_advance _) (le_trans (pos_le_advance _)
                  (le_trans (pos_le_advance _) (pos_le_advance _)))⟩
          · exact ⟨(advance_src _).trans ((advance_src _).trans (advance_src _)),
              le_trans (pos_le_advance _)
                (le_trans (pos_le_advance _) (pos_le_advance _))⟩
        · exact ⟨(advance_src _).trans (advance_src _),
            le_trans (pos_le_advance _) (pos_le_advance _)⟩
      · exact ⟨advance_src _, pos_le_advance _⟩
    · exact ⟨rfl, le_refl _⟩

theorem skipHexDigits_spec :
    ∀ n s, (skipHexDigits s n).src = s.src ∧ s.pos ≤ (skipHexDigits s n).pos := by
  intro n
  induction n with
  | zero => intro s; exact ⟨rfl, le_refl _⟩
  | succ n ih =>
    intro s
    unfold skipHexDigits
    split
    · exact ⟨rfl, le_refl _⟩
    · split_ifs <;>
        first
        | exact ⟨rfl, le_refl _⟩
        | exact ⟨(ih _).1.trans (advance_src _), le_trans (pos_le_advance _) (ih _).2⟩

theorem skipUnicodeEscapeGo_spec :
    ∀ n s, (skipUnicodeEscapeGo n s).src = s.src ∧ s.pos ≤ (skipUnicodeEscapeGo n s).pos := by
  intro n
  induction n with
  | zero => intro s; exact ⟨rfl, le_refl _⟩
  | succ n ih =>
    intro s
    unfold skipUnicodeEscapeGo
    split
    · exact ⟨rfl, le_refl _⟩
    · split_ifs <;>
        first
        | exact ⟨rfl, le_refl _⟩
        | exact ⟨advance_src _, pos_le_advance _⟩
        | exact ⟨(ih _).1.trans (advance_src _), le_trans (pos_le_advance _) (ih _).2⟩

theorem skipUnicodeEscape_spec (s : LexState) :
    (skipUnicodeEscape s).src = s.src ∧ s.pos ≤ (skipUnicodeEscape s).pos :=
  skipUnicodeEscapeGo_spec _ _

theorem skipHexDigits_src (s : LexState) (n : Nat) :
    (skipHexDigits s n).src = s.src := (skipHexDigits_spec n s).1

theorem skipHexDigits_posle (s : LexState) (n : Nat) :
    s.pos ≤ (skipHexDigits s n).pos := (skipHexDigits_spec n s).2

theorem skipUnicodeEscape_src (s : LexState) :
    (skipUnicodeEscape s).src = s.src := (skipUnicodeEscape_spec s).1

theorem skipUnicodeEscape_posle (s : LexState) :
    s.pos ≤ (skipUnicodeEscape s).pos := (skipUnicodeEscape_spec s).2

theorem scanNormalStringGo_src (a b c : Nat) :
    ∀ n s fl, (scanNormalStringGo a b c n s fl).2.src = s.src := by
  intro n
  induction n with
  | zero => intro s fl; rfl
  | succ n ih =>
    intro s fl
    unfold scanNormalStringGo
    split
    · rfl
    · split_ifs
      · exact advance_src _
      · dsimp only
        split
        · simp only [ih, advance_src]
        · split_ifs
          · simp only [ih, advance_src]
          · simp only [ih, advance_src, skipHexDigits_src]
          · simp only [ih, advance_src, skipUnicodeEscape_src]
          · simp only [ih, advance_src]
          · simp only [ih, advance_src]
      · rfl
      · simp only [ih, advance_src]

theorem scanNormalStringGo_posle (a b c : Nat) :
    ∀ n s fl, s.pos ≤ (scanNormalStringGo a b c n s fl).2.pos := by
  intro n
  induction n with
  | zero => intro s fl; exact le_refl _
  | succ n ih =>
    intro s fl
    unfold scanNormalStringGo
    split
    · exact le_refl _
    · split_ifs
      · exact pos_le_advance _
      · dsimp only
        split
        · exact le_trans (pos_le_advance _) (ih _ _)
        · split_ifs
          · exact le_trans (pos_le_advance _) (le_trans (pos_le_advance _) (ih _ _))
          · exact le_trans (pos_le_advance _) (le_trans (pos_le_advance _)
              (le_trans (skipHexDigits_posle _ _) (ih _ _)))
          · exact le_trans (pos_le_advance _) (le_trans (pos_le_advance _)
              (le_trans (pos_le_advance _)
                (le_trans (skipUnicodeEscape_posle _) (ih _ _))))
          · exact le_trans (pos_le_advance _) (le_trans (pos_le_advance _) (ih _ _))
          · exact le_trans (pos_le_advance _) (le_trans (pos_le_advance _) (ih _ _))
      · exact le_refl _
      · exact le_trans (pos_le_advance _) (ih _ _)

theorem countHashesGo_spec :
    ∀ n s k, (countHashesGo n s k).2.src = s.src ∧ s.pos ≤ (countHashesGo n s k).2.pos := by
  intro n
  induction n with
  | zero => intro s k; exact ⟨rfl, le_refl _⟩
  | succ n ih =>
    intro s k
    unfold countHashesGo
    split_ifs
    · exact ⟨(ih _ _).1.trans (advance_src _), le_trans (pos_le_advance _) (ih _ _).2⟩
    · exact ⟨rfl, le_refl _⟩

theorem consumeEndHashes_spec :
    ∀ n s, (consumeEndHashes n s).2.src = s.src ∧ s.pos ≤ (consumeEndHashes n s).2.pos := by
  intro n
  induction n with
  | zero => intro s; exact ⟨rfl, le_refl _⟩
  | succ n ih =>
    intro s
    unfold consumeEndHashes
    split_ifs
    · exact ⟨(ih _).1.trans (advance_src _), le_trans (pos_le_advance _) (ih _).2⟩
    · exact ⟨rfl, le_refl _⟩

theorem scanRawStringGo_spec (hc : Nat) :
    ∀ n s, (scanRawStringGo hc n s).src = s.src ∧ s.pos ≤ (scanRawStringGo hc n s).pos := by
  intro n
  induction n with
  | zero => intro s; exact ⟨rfl, le_refl _⟩
  | succ n ih =>
    intro s
    unfold scanRawStringGo
    split
    · exact ⟨rfl, le_refl _⟩
    · split_ifs
      · dsimp only
        split_ifs
        · exact ⟨(consumeEndHashes_spec _ _).1.trans (advance_src _),
            le_trans (pos_le_advance _) (consumeEndHashes_spec _ _).2⟩
        · exact ⟨(ih _).1.trans ((consumeEndHashes_spec _ _).1.trans (advance_src _)),
            le_trans (pos_le_advance _)
              (le_trans (consumeEndHashes_spec _ _).2 (ih _).2)⟩
      · exact ⟨(ih _).1.trans (advance_src _), le_trans (pos_le_advance _) (ih _).2⟩

theorem scanTexStringGo_spec :
    ∀ n s fl, (scanTexStringGo n s fl).2.src = s.src ∧
      s.pos ≤ (scanTexStringGo n s fl).2.pos := by
  intro n
  induction n with
  | zero => intro s fl; exact ⟨rfl, le_refl _⟩
  | succ n ih =>
    intro s fl
    unfold scanTexStringGo
    split
    · exact ⟨rfl, le_refl _⟩
    · split_ifs
      · exact ⟨advance_src _, pos_le_advance _⟩
      · dsimp only
        split
        · exact ⟨(ih _ _).1.trans ((advance_src _).trans (advance_src _)),
            le_trans (pos_le_advance _)
              (le_trans (pos_le_advance _) (ih _ _).2)⟩
        · exact ⟨(ih _ _).1.trans (advance_src _),
            le_trans (pos_le_advance _) (ih _ _).2⟩
      · exact ⟨(ih _ _).1.trans (advance_src _),
          le_trans (pos_le_advance _) (ih _ _).2⟩

theorem consumeUtf8Char_spec (s : LexState) :
    (consumeUtf8Char s).2.src = s.src ∧ s.pos ≤ (consumeUtf8Char s).2.pos := by
  unfold consumeUtf8Char
  split
  · exact ⟨rfl, le_refl _⟩
  · dsimp only
    split_ifs <;>
      first
      | exact ⟨rfl, le_refl _⟩
      | exact ⟨advanceN_src _ _, pos_le_advanceN _ _⟩

theorem identGo_spec :
    ∀ n s, (identGo n s).src = s.src ∧ s.pos ≤ (identGo n s).pos := by
  intro n
  induction n with
  | zero => intro s; exact ⟨rfl, le_refl _⟩
  | succ n ih =>
    intro s
    unfold identGo
    split
    · exact ⟨rfl, le_refl _⟩
    · split_ifs
      · exact ⟨(ih _).1.trans (advance_src _), le_trans (pos_le_advance _) (ih _).2⟩
      · dsimp only
        split_ifs
        · exact ⟨(ih _).1.trans (consumeUtf8Char_spec _).1,
            le_trans (consumeUtf8Char_spec _).2 (ih _).2⟩
        · exact ⟨rfl, le_refl _⟩
      · exact ⟨rfl, le_refl _⟩

theorem lineCommentGo_spec :
    ∀ n s, (lineCommentGo n s).src = s.src ∧ s.pos ≤ (lineCommentGo n s).pos := by
  intro n
  induction n with
  | zero => intro s; exact ⟨rfl, le_refl _⟩
  | succ n ih =>
    intro s
    unfold lineCommentGo
    split
    · exact ⟨rfl, le_refl _⟩
    · split_ifs
      · exact ⟨rfl, le_refl _⟩
      · exact ⟨(ih _).1.trans (advance_src _), le_trans (pos_le_advance _) (ih _).2⟩

theorem blockCommentGo_spec (a b c : Nat) :
    ∀ n s, (blockCommentGo a b c n s).src = s.src ∧
      s.pos ≤ (blockCommentGo a b c n s).pos := by
  intro n
  induction n with
  | zero => intro s; exact ⟨rfl, le_refl _⟩
  | succ n ih =>
    intro s
    unfold blockCommentGo
    split
    · exact ⟨rfl, le_refl _⟩
    · split_ifs
      · exact ⟨advanceN_src _ _, pos_le_advanceN _ _⟩
      · exact ⟨(ih _).1.trans (advance_src _), le_trans (pos_le_advance _) (ih _).2⟩

theorem skipWhitespaceGo_spec :
    ∀ n s, (skipWhitespaceGo n s).src = s.src ∧ s.pos ≤ (skipWhitespaceGo n s).pos := by
  intro n
  induction n with
  | zero => intro s; exact ⟨rfl, le_refl _⟩
  | succ n ih =>
    intro s
    unfold skipWhitespaceGo
    split
    · exact ⟨rfl, le_refl _⟩
    · split_ifs
      · exact ⟨(ih _).1.trans (advance_src _), le_trans (pos_le_advance _) (ih _).2⟩
      · exact ⟨rfl, le_refl _⟩

theorem skipWhitespace_spec (s : LexState) :
    (skipWhitespace s).src = s.src ∧ s.pos ≤ (skipWhitespace s).pos :=
  skipWhitespaceGo_spec _ _

/-! ### Scanner-level invariants: source preservation, cursor
monotonicity, and strict progress under the scanner's `canScan` guard. -/

theorem consumeDigits_spec (s : LexState) :
    (consumeDigits s).src = s.src ∧ s.pos ≤ (consumeDigits s).pos :=
  consumeDigitsGo_spec _ _

theorem consumeDigits_strict {s : LexState} {c : Nat} (h : s.current = some c)
    (hd : isDigitByte c = true) : s.pos < (consumeDigits s).pos := by
  unfold consumeDigits
  simp only [consumeDigitsGo, h, hd]
  calc s.pos < s.advance.pos := by
        rw [advance_pos_of_lt (pos_lt_of_current h)]; omega
    _ ≤ _ := (consumeDigitsGo_spec _ _).2

theorem scanDecimalDot_spec (s : LexState) :
    (scanDecimalDot s).2.src = s.src ∧ s.pos ≤ (scanDecimalDot s).2.pos := by
  unfold scanDecimalDot
  split_ifs
  · split
    · split_ifs
      · exact ⟨(consumeDigits_spec _).1.trans (advance_src _),
          le_trans (pos_le_advance _) (consumeDigits_spec _).2⟩
      · exact ⟨rfl, le_refl _⟩
    · exact ⟨rfl, le_refl _⟩
  · exact ⟨rfl, le_refl _⟩

theorem scanDecimalExp_spec (s : LexState) (b1 : Bool) :
    (scanDecimalExp s b1).2.src = s.src ∧ s.pos ≤ (scanDecimalExp s b1).2.pos := by
  unfold scanDecimalExp
  split
  · split_ifs
    · dsimp only
      split
      · split_ifs
        · exact ⟨(consumeDigits_spec _).1.trans ((advance_src _).trans (advance_src _)),
            le_trans (pos_le_advance _)
              (le_trans (pos_le_advance _) (consumeDigits_spec _).2)⟩
        · exact ⟨(consumeDigits_spec _).1.trans (advance_src _),
            le_trans (pos_le_advance _) (consumeDigits_spec _).2⟩
      · exact ⟨(consumeDigits_spec _).1.trans (advance_src _),
          le_trans (pos_le_advance _) (consumeDigits_spec _).2⟩
    · exact ⟨rfl, le_refl _⟩
  · exact ⟨rfl, le_refl _⟩

theorem scanDecimal_snd_spec (s : LexState) (a b c : Nat) :
    (scanDecimal s a b c).2.src = s.src ∧ s.pos ≤ (scanDecimal s a b c).2.pos := by
  unfold scanDecimal
  dsimp only
  rw [makeToken_snd_src, makeToken_snd_pos]
  constructor
  · rw [(consumeSuffix_spec _).1, (scanDecimalExp_spec _ _).1,
      (scanDecimalDot_spec _).1, (consumeDigits_spec _).1]
  · exact le_trans (consumeDigits_spec _).2 (le_trans (scanDecimalDot_spec _).2
      (le_trans (scanDecimalExp_spec _ _).2 (consumeSuffix_spec _).2))

theorem scanDecimal_strict {s : LexState} {c0 : Nat} (h : s.current = some c0)
    (hd : isDigitByte c0 = true) (a b c : Nat) :
    s.pos < (scanDecimal s a b c).2.pos := by
  unfold scanDecimal
  dsimp only
  rw [makeToken_snd_pos]
  exact lt_of_lt_of_le (consumeDigits_strict h hd)
    (le_trans (scanDecimalDot_spec _).2
      (le_trans (scanDecimalExp_spec _ _).2 (consumeSuffix_spec _).2))

theorem consumeHexDigits_spec (s : LexState) :
    (consumeHexDigits s).src = s.src ∧ s.pos ≤ (consumeHexDigits s).pos :=
  consumeHexDigitsGo_spec _ _

theorem consumeBinaryDigits_spec (s : LexState) :
    (consumeBinaryDigits s).src = s.src ∧ s.pos ≤ (consumeBinaryDigits s).pos :=
  consumeBinaryDigitsGo_spec _ _

theorem consumeOctalDigits_spec (s : LexState) :
    (consumeOctalDigits s).src = s.src ∧ s.pos ≤ (consumeOctalDigits s).pos :=
  consumeOctalDigitsGo_spec _ _

theorem scanHexadecimal_snd_spec (s : LexState) (a b c : Nat) :
    (scanHexadecimal s a b c).2.src = s.src ∧ s.pos ≤ (scanHexadecimal s a b c).2.pos := by
  unfold scanHexadecimal
  rw [makeToken_snd_src, makeToken_snd_pos]
  constructor
  · rw [(consumeSuffix_spec _).1, (consumeHexDigits_spec _).1, advanceN_src]
  · exact le_trans (pos_le_advanceN _ _) (le_trans (consumeHexDigits_spec _).2
      (consumeSuffix_spec _).2)

theorem scanHexadecimal_strict {s : LexState} (h : s.pos < s.src.length) (a b c : Nat) :
    s.pos < (scanHexadecimal s a b c).2.pos := by
  unfold scanHexadecimal
  rw [makeToken_snd_pos]
  exact lt_of_lt_of_le (pos_lt_advanceN (by omega) h)
    (le_trans (consumeHexDigits_spec _).2 (consumeSuffix_spec _).2)

theorem scanBinary_snd_spec (s : LexState) (a b c : Nat) :
    (scanBinary s a b c).2.src = s.src ∧ s.pos ≤ (scanBinary s a b c).2.pos := by
  unfold scanBinary
  rw [makeToken_snd_src, makeToken_snd_pos]
  constructor
  · rw [(consumeSuffix_spec _).1, (consumeBinaryDigits_spec _).1, advanceN_src]
  · exact le_trans (pos_le_advanceN _ _) (le_trans (consumeBinaryDigits_spec _).2
      (consumeSuffix_spec _).2)

theorem scanBinary_strict {s : LexState} (h : s.pos < s.src.length) (a b c : Nat) :
    s.pos < (scanBinary s a b c).2.pos := by
  unfold scanBinary
  rw [makeToken_snd_pos]
  exact lt_of_lt_of_le (pos_lt_advanceN (by omega) h)
    (le_trans (consumeBinaryDigits_spec _).2 (consumeSuffix_spec _).2)

theorem scanOctal_snd_spec (s : LexState) (a b c : Nat) :
    (scanOctal s a b c).2.src = s.src ∧ s.pos ≤ (scanOctal s a b c).2.pos := by
  unfold scanOctal
  rw [makeToken_snd_src, makeToken_snd_pos]
  constructor
  · rw [(consumeSuffix_spec _).1, (consumeOctalDigits_spec _).1, advanceN_src]
  · exact le_trans (pos_le_advanceN _ _) (le_trans (consumeOctalDigits_spec _).2
      (consumeSuffix_spec _).2)

theorem scanOctal_strict {s : LexState} (h : s.pos < s.src.length) (a b c : Nat) :
    s.pos < (scanOctal s a b c).2.pos := by
  unfold scanOctal
  rw [makeToken_snd_pos]
  exact lt_of_lt_of_le (pos_lt_advanceN (by omega) h)
    (le_trans (consumeOctalDigits_spec _).2 (consumeSuffix_spec _).2)

theorem numberScan_snd_spec (s : LexState) :
    (NumberScanner.scan s).2.src = s.src ∧ s.pos ≤ (NumberScanner.scan s).2.pos := by
  unfold NumberScanner.scan
  split
  · rw [makeUnknown_snd_src, makeUnknown_snd_pos]; exact ⟨rfl, le_refl _⟩
  · split_ifs
    · split
      · split_ifs
        · exact scanHexadecimal_snd_spec s s.pos s.line s.col
        · exact scanBinary_snd_spec s s.pos s.line s.col
        · exact scanOctal_snd_spec s s.pos s.line s.col
        · exact scanDecimal_snd_spec s s.pos s.line s.col
      · exact scanDecimal_snd_spec s s.pos s.line s.col
    · exact scanDecimal_snd_spec s s.pos s.line s.col

theorem numberScan_strict {s : LexState} {c : Nat} (h : s.current = some c)
    (hd : isDigitByte c = true) : s.pos < (NumberScanner.scan s).2.pos := by
  have hlt : s.pos < s.src.length := pos_lt_of_current h
  unfold NumberScanner.scan
  rw [h]
  dsimp only
  split_ifs
  · split
    · split_ifs
      · exact scanHexadecimal_strict hlt s.pos s.line s.col
      · exact scanBinary_strict hlt s.pos s.line s.col
      · exact scanOctal_strict hlt s.pos s.line s.col
      · exact scanDecimal_strict h hd s.pos s.line s.col
    · exact scanDecimal_strict h hd s.pos s.line s.col
  · exact scanDecimal_strict h hd s.pos s.line s.col

theorem scanNormalString_snd_spec (s : LexState) (a b c : Nat) :
    (scanNormalString s a b c).2.src = s.src ∧ s.pos ≤ (scanNormalString s a b c).2.pos := by
  unfold scanNormalString
  dsimp only
  rw [makeToken_snd_src, makeToken_snd_pos]
  constructor
  · rw [scanNormalStringGo_src, advance_src]
  · exact le_trans (pos_le_advance _) (scanNormalStringGo_posle ..)

theorem scanNormalString_strict {s : LexState} (h : s.pos < s.src.length) (a b c : Nat) :
    s.pos < (scanNormalString s a b c).2.pos := by
  unfold scanNormalString
  dsimp only
  rw [makeToken_snd_pos]
  refine lt_of_lt_of_le ?_ (scanNormalStringGo_posle ..)
  rw [advance_pos_of_lt h]
  omega

theorem scanRawString_snd_spec (s : LexState) (a b c : Nat) :
    (scanRawString s a b c).2.src = s.src ∧ s.pos ≤ (scanRawString s a b c).2.pos := by
  unfold scanRawString
  dsimp only
  split_ifs
  · rw [makeToken_snd_src, makeToken_snd_pos]
    constructor
    · rw [(scanRawStringGo_spec _ _ _).1, advance_src,
        (countHashesGo_spec _ _ _).1, advance_src]
    · exact le_trans (pos_le_advance _) (le_trans (countHashesGo_spec _ _ _).2
        (le_trans (pos_le_advance _) (scanRawStringGo_spec _ _ _).2))
  · rw [makeUnknown_snd_src, makeUnknown_snd_pos]
    constructor
    · rw [(countHashesGo_spec _ _ _).1, advance_src]
    · exact le_trans (pos_le_advance _) (countHashesGo_spec _ _ _).2

theorem scanRawString_strict {s : LexState} (h : s.pos < s.src.length) (a b c : Nat) :
    s.pos < (scanRawString s a b c).2.pos := by
  have h1 : s.pos < s.advance.pos := by rw [advance_pos_of_lt h]; omega
  unfold scanRawString
  dsimp only
  split_ifs
  · rw [makeToken_snd_pos]
    exact lt_of_lt_of_le h1 (le_trans (countHashesGo_spec _ _ _).2
      (le_trans (pos_le_advance _) (scanRawStringGo_spec _ _ _).2))
  · rw [makeUnknown_snd_pos]
    exact lt_of_lt_of_le h1 (countHashesGo_spec _ _ _).2

theorem scanTexString_snd_spec (s : LexState) (a b c : Nat) :
    (scanTexString s a b c).2.src = s.src ∧ s.pos ≤ (scanTexString s a b c).2.pos := by
  unfold scanTexString
  dsimp only
  split_ifs
  · rw [makeToken_snd_src, makeToken_snd_pos]
    constructor
    · rw [(scanTexStringGo_spec _ _ _).1, advance_src, advance_src]
    · exact le_trans (pos_le_advance _) (le_trans (pos_le_advance _)
        (scanTexStringGo_spec _ _ _).2)
  · rw [makeUnknown_snd_src, makeUnknown_snd_pos]
    exact ⟨advance_src _, pos_le_advance _⟩

theorem scanTexString_strict {s : LexState} (h : s.pos < s.src.length) (a b c : Nat) :
    s.pos < (scanTexString s a b c).2.pos := by
  have h1 : s.pos < s.advance.pos := by rw [advance_pos_of_lt h]; omega
  unfold scanTexString
  dsimp only
  split_ifs
  · rw [makeToken_snd_pos]
    exact lt_of_lt_of_le h1 (le_trans (pos_le_advance _) (scanTexStringGo_spec _ _ _).2)
  · rw [makeUnknown_snd_pos]
    exact h1

theorem stringScan_snd_spec (s : LexState) :
    (StringScanner.scan s).2.src = s.src ∧ s.pos ≤ (StringScanner.scan s).2.pos := by
  unfold StringScanner.scan
  split
  · rw [makeUnknown_snd_src, makeUnknown_snd_pos]; exact ⟨rfl, le_refl _⟩
  · split_ifs
    · exact scanRawString_snd_spec ..
    · exact scanTexString_snd_spec ..
    · exact scanNormalString_snd_spec ..

theorem stringScan_strict {s : LexState} (h : s.pos < s.src.length) :
    s.pos < (StringScanner.scan s).2.pos := by
  unfold StringScanner.scan
  split
  · rename_i hc
    rw [current_eq_none_iff] at hc
    omega
  · split_ifs
    · exact scanRawString_strict h ..
    · exact scanTexString_strict h ..
    · exact scanNormalString_strict h ..

theorem consumeUtf8Char_of_fail {s : LexState} (h : (consumeUtf8Char s).1 = false) :
    (consumeUtf8Char s).2 = s := by
  rcases hc : s.current with _ | c
  · simp [consumeUtf8Char, hc]
  · simp only [consumeUtf8Char, hc] at h ⊢
    by_cases h1 : charLength c = 0
    · simp [h1]
    · by_cases h2 : contBytesOk s (charLength c) = true
      · rw [if_neg h1, if_pos h2] at h
        simp at h
      · rw [if_neg h1, if_neg h2]

theorem consumeUtf8Char_strict {s : LexState} (hp : s.pos < s.src.length)
    (h : (consumeUtf8Char s).1 = true) : s.pos < (consumeUtf8Char s).2.pos := by
  rcases hc : s.current with _ | c
  · simp [consumeUtf8Char, hc] at h
  · simp only [consumeUtf8Char, hc] at h ⊢
    by_cases h1 : charLength c = 0
    · rw [if_pos h1] at h
      simp at h
    · by_cases h2 : contBytesOk s (charLength c) = true
      · rw [if_neg h1, if_pos h2]
        exact pos_lt_advanceN (by omega) hp
      · rw [if_neg h1, if_neg h2] at h
        simp at h

theorem identScan_snd_spec (s : LexState) :
    (IdentScanner.scan s).2.src = s.src ∧ s.pos ≤ (IdentScanner.scan s).2.pos := by
  unfold IdentScanner.scan
  split
  · rw [makeUnknown_snd_src, makeUnknown_snd_pos]; exact ⟨rfl, le_refl _⟩
  · split_ifs
    · dsimp only
      split_ifs
      · rw [makeToken_snd_src, makeToken_snd_pos]
        constructor
        · rw [(identGo_spec _ _).1, (consumeUtf8Char_spec _).1]
        · exact le_trans (consumeUtf8Char_spec _).2 (identGo_spec _ _).2
      · rw [makeUnknown_snd_src, makeUnknown_snd_pos]
        constructor
        · rw [advance_src, (consumeUtf8Char_spec _).1]
        · exact le_trans (consumeUtf8Char_spec _).2 (pos_le_advance _)
    · rw [makeToken_snd_src, makeToken_snd_pos]
      constructor
      · rw [(identGo_spec _ _).1, advance_src]
      · exact le_trans (pos_le_advance _) (identGo_spec _ _).2

theorem identScan_strict {s : LexState} (h : s.pos < s.src.length) :
    s.pos < (IdentScanner.scan s).2.pos := by
  unfold IdentScanner.scan
  split
  · rename_i hc
    rw [current_eq_none_iff] at hc
    omega
  · split_ifs
    · dsimp only
      split_ifs with hu
      · rw [makeToken_snd_pos]
        exact lt_of_lt_of_le (consumeUtf8Char_strict h hu) (identGo_spec _ _).2
      · rw [makeUnknown_snd_pos]
        rw [consumeUtf8Char_of_fail (by simpa using hu)]
        rw [advance_pos_of_lt h]
        omega
    · rw [makeToken_snd_pos]
      refine lt_of_lt_of_le ?_ (identGo_spec _ _).2
      rw [advance_pos_of_lt h]
      omega

theorem charScan_snd_spec (s : LexState) :
    (CharScanner.scan s).2.src = s.src ∧ s.pos ≤ (CharScanner.scan s).2.pos := by
  unfold CharScanner.scan
  split
  · rw [makeUnknown_snd_src, makeUnknown_snd_pos]; exact ⟨rfl, le_refl _⟩
  · dsimp only
    split
    · rw [makeToken_snd_src, makeToken_snd_pos]
      exact ⟨advanceN_src .., pos_le_advanceN ..⟩
    · split
      · rw [makeToken_snd_src, makeToken_snd_pos]
        exact ⟨advanceN_src .., pos_le_advanceN ..⟩
      · split
        · rw [makeToken_snd_src, makeToken_snd_pos]
          exact ⟨advance_src _, pos_le_advance _⟩
        · split
          · rw [makeToken_snd_src, makeToken_snd_pos]
            exact ⟨advance_src _, pos_le_advance _⟩
          · rw [makeUnknown_snd_src, makeUnknown_snd_pos]
            exact ⟨advance_src _, pos_le_advance _⟩

theorem charScan_strict {s : LexState} (h : s.pos < s.src.length) :
    s.pos < (CharScanner.scan s).2.pos := by
  have h1 : s.pos < s.advance.pos := by rw [advance_pos_of_lt h]; omega
  unfold CharScanner.scan
  split
  · rename_i hc
    rw [current_eq_none_iff] at hc
    omega
  · dsimp only
    split
    · rw [makeToken_snd_pos]
      exact pos_lt_advanceN (by omega) h
    · split
      · rw [makeToken_snd_pos]
        exact pos_lt_advanceN (by omega) h
      · split
        · rw [makeToken_snd_pos]
          exact h1
        · split
          · rw [makeToken_snd_pos]
            exact h1
          · rw [makeUnknown_snd_pos]
            exact h1

theorem scanUnknown_snd_spec (s : LexState) :
    (scanUnknown s).2.src = s.src ∧ s.pos ≤ (scanUnknown s).2.pos := by
  unfold scanUnknown
  split
  · rw [makeUnknown_snd_src, makeUnknown_snd_pos]; exact ⟨rfl, le_refl _⟩
  · dsimp only
    rw [makeUnknown_snd_src, makeUnknown_snd_pos]
    exact ⟨advance_src (s.reportError .InvalidCharacter s.line s.col s.pos),
      pos_le_advance (s.reportError .InvalidCharacter s.line s.col s.pos)⟩

theorem scanUnknown_strict {s : LexState} (h : s.pos < s.src.length) :
    s.pos < (scanUnknown s).2.pos := by
  unfold scanUnknown
  split
  · rename_i hc
    rw [current_eq_none_iff] at hc
    omega
  · dsimp only
    rw [makeUnknown_snd_pos]
    have hr : (s.reportError .InvalidCharacter s.line s.col s.pos).pos
        < (s.reportError .InvalidCharacter s.line s.col s.pos).src.length := h
    rw [advance_pos_of_lt hr]
    exact Nat.lt_succ_self s.pos

theorem scanLineComment_snd_spec (s : LexState) (a b c : Nat) :
    (scanLineComment s a b c).2.src = s.src ∧ s.pos ≤ (scanLineComment s a b c).2.pos := by
  unfold scanLineComment
  dsimp only
  rw [makeToken_snd_src, makeToken_snd_pos]
  split_ifs
  · constructor
    · rw [(lineCommentGo_spec _ _).1, advance_src, advanceN_src]
    · exact le_trans (pos_le_advanceN _ _) (le_trans (pos_le_advance _)
        (lineCommentGo_spec _ _).2)
  · constructor
    · rw [(lineCommentGo_spec _ _).1, advanceN_src]
    · exact le_trans (pos_le_advanceN _ _) (lineCommentGo_spec _ _).2

theorem scanBlockComment_snd_spec (s : LexState) (a b c : Nat) :
    (scanBlockComment s a b c).2.src = s.src ∧ s.pos ≤ (scanBlockComment s a b c).2.pos := by
  unfold scanBlockComment
  dsimp only
  rw [makeToken_snd_src, makeToken_snd_pos]
  split
  · split_ifs
    · constructor
      · rw [(blockCommentGo_spec _ _ _ _ _).1, advanceN_src]
      · exact le_trans (pos_le_advanceN _ _) (blockCommentGo_spec _ _ _ _ _).2
    · constructor
      · rw [(blockCommentGo_spec _ _ _ _ _).1, advance_src, advanceN_src]
      · exact le_trans (pos_le_advanceN _ _) (le_trans (pos_le_advance _)
          (blockCommentGo_spec _ _ _ _ _).2)
  · constructor
    · rw [(blockCommentGo_spec _ _ _ _ _).1, advanceN_src]
    · exact le_trans (pos_le_advanceN _ _) (blockCommentGo_spec _ _ _ _ _).2

theorem commentScan_snd_spec (s : LexState) :
    (CommentScanner.scan s).2.src = s.src ∧ s.pos ≤ (CommentScanner.scan s).2.pos := by
  unfold CommentScanner.scan
  split
  · rw [makeUnknown_snd_src, makeUnknown_snd_pos]; exact ⟨rfl, le_refl _⟩
  · split_ifs
    · exact scanLineComment_snd_spec ..
    · exact scanBlockComment_snd_spec ..
    · rw [makeUnknown_snd_src, makeUnknown_snd_pos]; exact ⟨rfl, le_refl _⟩

theorem skipWSCommentsGo_spec :
    ∀ n s, (skipWSCommentsGo n s).src = s.src ∧ s.pos ≤ (skipWSCommentsGo n s).pos := by
  intro n
  induction n with
  | zero => intro s; exact ⟨rfl, le_refl _⟩
  | succ n ih =>
    intro s
    unfold skipWSCommentsGo
    dsimp only
    split_ifs
    · exact ⟨(ih _).1.trans ((commentScan_snd_spec _).1.trans
        (skipWhitespace_spec _).1),
        le_trans (skipWhitespace_spec _).2
          (le_trans (commentScan_snd_spec _).2 (ih _).2)⟩
    · exact skipWhitespace_spec _

theorem skipWhitespaceAndComments_spec (s : LexState) :
    (skipWhitespaceAndComments s).src = s.src ∧
      s.pos ≤ (skipWhitespaceAndComments s).pos :=
  skipWSCommentsGo_spec _ _

theorem scanToken_snd_spec (s : LexState) :
    (scanToken s).2.src = s.src ∧ s.pos ≤ (scanToken s).2.pos := by
  unfold scanToken
  split_ifs
  · exact stringScan_snd_spec s
  · exact identScan_snd_spec s
  · exact numberScan_snd_spec s
  · exact charScan_snd_spec s
  · exact scanUnknown_snd_spec s

theorem scanToken_strict {s : LexState} (h : s.pos < s.src.length) :
    s.pos < (scanToken s).2.pos := by
  unfold scanToken
  split_ifs with h1 h2 h3 h4
  · exact stringScan_strict h
  · exact identScan_strict h
  · unfold NumberScanner.canScan at h3
    rcases hc : s.current with _ | c
    · rw [hc] at h3
      simp at h3
    · rw [hc] at h3
      exact numberScan_strict hc h3
  · exact charScan_strict h
  · exact scanUnknown_strict h

theorem nextToken_snd_src (s : LexState) : (nextToken s).2.src = s.src := by
  unfold nextToken
  dsimp only
  split_ifs
  · exact (skipWhitespaceAndComments_spec s).1
  · exact (scanToken_snd_spec _).1.trans (skipWhitespaceAndComments_spec s).1

theorem nextToken_progress {s : LexState}
    (h : (nextToken s).1.type ≠ TokenType.TOKEN_EOF) :
    s.pos < (nextToken s).2.pos ∧ s.pos < s.src.length := by
  unfold nextToken at h ⊢
  dsimp only at h ⊢
  split_ifs at h ⊢ with hEnd
  · exact absurd rfl h
  · have hlt : (skipWhitespaceAndComments s).pos
        < (skipWhitespaceAndComments s).src.length := by
      simp only [LexState.isAtEnd, decide_eq_true_eq] at hEnd
      omega
    refine ⟨lt_of_le_of_lt (skipWhitespaceAndComments_spec s).2 (scanToken_strict hlt), ?_⟩
    have := (skipWhitespaceAndComments_spec s).2
    rw [(skipWhitespaceAndComments_spec s).1] at hlt
    omega

theorem getLast?_cons_of_some {α : Type} {l : List α} {x a : α}
    (h : l.getLast? = some x) : (a :: l).getLast? = some x := by
  cases l with
  | nil => simp at h
  | cons b t => rw [List.getLast?_cons_cons]; exact h

theorem tokenizeGo_last_eof :
    ∀ n (s : LexState), s.src.length - s.pos + 2 ≤ n →
      ((tokenizeGo n s).1.map Token.type).getLast? = some TokenType.TOKEN_EOF := by
  intro n
  induction n with
  | zero => intro s h; omega
  | succ n ih =>
    intro s h
    unfold tokenizeGo
    dsimp only
    split_ifs with hEof
    · simp [hEof]
    · obtain ⟨h1, h2⟩ := nextToken_progress hEof
      have hsrc := nextToken_snd_src s
      have hfuel : (nextToken s).2.src.length - (nextToken s).2.pos + 2 ≤ n := by
        rw [hsrc]
        omega
      simp only [List.map_cons]
      exact getLast?_cons_of_some (ih _ hfuel)

/-! ### Token-shape lemmas: which kinds each scanner can produce, and
that every constructed token has its raw-literal slice equal to its value
slice (nothing in the lexer ever calls `setRawLiteral`). -/

/-- Raw-literal slice coincides with the value slice. -/
def rawAligned (t : Token) : Prop :=
  t.rawOffset = t.offset ∧ t.rawLength = t.length

theorem lookupKeyword_ne_underscore (w : List Nat) :
    lookupKeyword w ≠ some TokenType.DELIM_UNDERSCORE := by
  intro h
  unfold lookupKeyword at h
  rcases Option.map_eq_some'.mp h with ⟨e, he, he2⟩
  have hm := List.mem_of_find?_eq_some he
  fin_cases hm <;> simp_all

theorem getD_lookupKeyword_ne_underscore (w : List Nat) :
    (lookupKeyword w).getD TokenType.IDENTIFIER ≠ TokenType.DELIM_UNDERSCORE := by
  rcases hk : lookupKeyword w with _ | k
  · simp
  · have hne := lookupKeyword_ne_underscore w
    rw [hk] at hne
    simp only [Option.getD_some]
    intro h
    exact hne (by rw [h])

theorem singleCharLookup_underscore {c : Nat}
    (h : singleCharLookup c = some TokenType.DELIM_UNDERSCORE) : c = 95 := by
  unfold singleCharLookup at h
  rcases Option.map_eq_some'.mp h with ⟨e, he, he2⟩
  have hm := List.mem_of_find?_eq_some he
  have hp := List.find?_some he
  fin_cases hm <;> simp_all

theorem multiStartLookup_ne_underscore (c : Nat) :
    multiStartLookup c ≠ some TokenType.DELIM_UNDERSCORE := by
  intro h
  unfold multiStartLookup at h
  rcases Option.map_eq_some'.mp h with ⟨e, he, he2⟩
  have hm := List.mem_of_find?_eq_some he
  fin_cases hm <;> simp_all

theorem doubleCharLookup_ne_underscore (a b : Nat) :
    doubleCharLookup a b ≠ some TokenType.DELIM_UNDERSCORE := by
  intro h
  unfold doubleCharLookup at h
  rcases Option.map_eq_some'.mp h with ⟨e, he, he2⟩
  have hm := List.mem_of_find?_eq_some he
  fin_cases hm <;> simp_all

theorem tripleCharLookup_ne_underscore (a b c : Nat) :
    tripleCharLookup a b c ≠ some TokenType.DELIM_UNDERSCORE := by
  intro h
  unfold tripleCharLookup at h
  rcases Option.map_eq_some'.mp h with ⟨e, he, he2⟩
  have hm := List.mem_of_find?_eq_some he
  fin_cases hm <;> simp_all

theorem stringScan_type (s : LexState) :
    (StringScanner.scan s).1.type = TokenType.LIT_STRING ∨
    (StringScanner.scan s).1.type = TokenType.LIT_RAW_STRING ∨
    (StringScanner.scan s).1.type = TokenType.LIT_TEX_STRING ∨
    (StringScanner.scan s).1.type = TokenType.TOKEN_UNKNOWN := by
  unfold StringScanner.scan
  split
  · exact Or.inr (Or.inr (Or.inr rfl))
  · split_ifs
    · unfold scanRawString
      dsimp only
      split_ifs
      · exact Or.inr (Or.inl rfl)
      · exact Or.inr (Or.inr (Or.inr rfl))
    · unfold scanTexString
      dsimp only
      split_ifs
      · exact Or.inr (Or.inr (Or.inl rfl))
      · exact Or.inr (Or.inr (Or.inr rfl))
    · exact Or.inl rfl

theorem identScan_type_ne_underscore (s : LexState) :
    (IdentScanner.scan s).1.type ≠ TokenType.DELIM_UNDERSCORE := by
  unfold IdentScanner.scan
  split
  · intro h
    cases h
  · split_ifs
    · dsimp only
      split_ifs
      · exact getD_lookupKeyword_ne_underscore _
      · intro h
        cases h
    · exact getD_lookupKeyword_ne_underscore _

theorem numberScan_type_ne_underscore (s : LexState) :
    (NumberScanner.scan s).1.type ≠ TokenType.DELIM_UNDERSCORE := by
  have hdec : ∀ a b c, (scanDecimal s a b c).1.type ≠ TokenType.DELIM_UNDERSCORE := by
    intro a b c
    unfold scanDecimal
    dsimp only
    split_ifs <;> intro h <;> cases h
  unfold NumberScanner.scan
  split
  · intro h
    cases h
  · split_ifs
    · split
      · split_ifs <;>
          first
          | (intro h; cases h)
          | exact hdec _ _ _
      · exact hdec _ _ _
    · exact hdec _ _ _

theorem charScan_type_ne_underscore {s : LexState} {c : Nat}
    (hcur : s.current = some c) (hc : c ≠ 95) :
    (CharScanner.scan s).1.type ≠ TokenType.DELIM_UNDERSCORE := by
  unfold CharScanner.scan
  rw [hcur]
  dsimp only
  split
  · rename_i t ht
    intro h
    have h2 : t = TokenType.DELIM_UNDERSCORE := h
    subst h2
    revert ht
    split
    · exact fun ht => tripleCharLookup_ne_underscore _ _ _ ht
    · intro ht
      cases ht
  · split
    · rename_i t ht
      intro h
      have h2 : t = TokenType.DELIM_UNDERSCORE := h
      subst h2
      revert ht
      split
      · exact fun ht => doubleCharLookup_ne_underscore _ _ ht
      · intro ht
        cases ht
    · split
      · rename_i t ht
        intro h
        have h2 : t = TokenType.DELIM_UNDERSCORE := h
        subst h2
        exact hc (singleCharLookup_underscore ht)
      · split
        · rename_i t ht
          intro h
          have h2 : t = TokenType.DELIM_UNDERSCORE := h
          subst h2
          exact multiStartLookup_ne_underscore _ ht
        · intro h
          cases h

theorem isAsciiIdentStart_95 : isAsciiIdentStart 95 = true := by decide

theorem scanToken_type_ne_underscore (s : LexState) :
    (scanToken s).1.type ≠ TokenType.DELIM_UNDERSCORE := by
  unfold scanToken
  split_ifs with h1 h2 h3 h4
  · rcases stringScan_type s with h | h | h | h <;> (rw [h]; intro hx; cases hx)
  · exact identScan_type_ne_underscore s
  · exact numberScan_type_ne_underscore s
  · unfold CharScanner.canScan at h4
    rcases hcur : s.current with _ | c
    · rw [hcur] at h4
      simp at h4
    · refine charScan_type_ne_underscore hcur ?_
      intro hc
      subst hc
      unfold IdentScanner.canScan at h2
      rw [hcur] at h2
      simp [isAsciiIdentStart_95] at h2
  · unfold scanUnknown
    split
    · intro h
      cases h
    · intro h
      cases h

theorem nextToken_type_ne_underscore (s : LexState) :
    (nextToken s).1.type ≠ TokenType.DELIM_UNDERSCORE := by
  unfold nextToken
  dsimp only
  split_ifs
  · intro h
    cases h
  · exact scanToken_type_ne_underscore _

theorem mem_tokenizeGo {n : Nat} {s : LexState} {t : Token}
    (h : t ∈ (tokenizeGo n s).1) : ∃ s0, t = (nextToken s0).1 := by
  induction n generalizing s with
  | zero => simp [tokenizeGo] at h
  | succ n ih =>
    unfold tokenizeGo at h
    dsimp only at h
    split_ifs at h with hEof
    · simp only [List.mem_singleton] at h
      exact ⟨s, h⟩
    · rcases List.mem_cons.mp h with h1 | h2
      · exact ⟨s, h1⟩
      · exact ih h2

theorem stringScan_raw (s : LexState) : rawAligned (StringScanner.scan s).1 := by
  unfold StringScanner.scan
  split
  · exact ⟨rfl, rfl⟩
  · split_ifs
    · unfold scanRawString
      dsimp only
      split_ifs <;> exact ⟨rfl, rfl⟩
    · unfold scanTexString
      dsimp only
      split_ifs <;> exact ⟨rfl, rfl⟩
    · exact ⟨rfl, rfl⟩

theorem identScan_raw (s : LexState) : rawAligned (IdentScanner.scan s).1 := by
  unfold IdentScanner.scan
  split
  · exact ⟨rfl, rfl⟩
  · split_ifs
    · dsimp only
      split_ifs <;> exact ⟨rfl, rfl⟩
    · exact ⟨rfl, rfl⟩

theorem numberScan_raw (s : LexState) : rawAligned (NumberScanner.scan s).1 := by
  have hdec : ∀ a b c, rawAligned (scanDecimal s a b c).1 := by
    intro a b c
    unfold scanDecimal
    dsimp only
    split_ifs <;> exact ⟨rfl, rfl⟩
  unfold NumberScanner.scan
  split
  · exact ⟨rfl, rfl⟩
  · split_ifs
    · split
      · split_ifs <;>
          first
          | exact ⟨rfl, rfl⟩
          | exact hdec _ _ _
      · exact hdec _ _ _
    · exact hdec _ _ _

theorem charScan_raw (s : LexState) : rawAligned (CharScanner.scan s).1 := by
  unfold CharScanner.scan
  split
  · exact ⟨rfl, rfl⟩
  · dsimp only
    split
    · exact ⟨rfl, rfl⟩
    · split
      · exact ⟨rfl, rfl⟩
      · split
        · exact ⟨rfl, rfl⟩
        · split
          · exact ⟨rfl, rfl⟩
          · exact ⟨rfl, rfl⟩

theorem scanToken_raw (s : LexState) : rawAligned (scanToken s).1 := by
  unfold scanToken
  split_ifs
  · exact stringScan_raw s
  · exact identScan_raw s
  · exact numberScan_raw s
  · exact charScan_raw s
  · unfold scanUnknown
    split
    · exact ⟨rfl, rfl⟩
    · exact ⟨rfl, rfl⟩

theorem nextToken_raw (s : LexState) : rawAligned (nextToken s).1 := by
  unfold nextToken
  dsimp only
  split_ifs
  · exact ⟨rfl, rfl⟩
  · exact scanToken_raw _

/-- A one-buffer Source Arena over the given text, as produced by a
single `addBuffer` call. -/
def smOf (src : List Nat) (name : String) : SourceManager :=
  ⟨[⟨src, name, false, none⟩]⟩

/-! ### Claim theorems -/

/-- C1: for every finite input buffer (including one consisting only of
invalid bytes such as 0x01), tokenization runs to completion and the last
token of the returned stream is the EOF token; moreover every scanner
invocation (`scanToken`) and the unknown-character fallback strictly
advance the cursor whenever input remains, so the scan loop makes forward
progress on every iteration. -/
theorem tokenize_terminates_last_eof :
    (∀ src : List Nat,
      ((tokenizeBytes src).1.map Token.type).getLast? = some TokenType.TOKEN_EOF)
    ∧ (∀ s : LexState, s.pos < s.src.length → s.pos < (scanToken s).2.pos)
    ∧ (∀ s : LexState, s.pos < s.src.length → s.pos < (scanUnknown s).2.pos) := by
  refine ⟨fun src => ?_, fun s h => scanToken_strict h, fun s h => scanUnknown_strict h⟩
  unfold tokenizeBytes tokenize
  exact tokenizeGo_last_eof _ _ (le_refl _)

/-- Witness for C1 at the all-0x01 input and its initial lexer state. -/
theorem tokenize_terminates_last_eof_witness :
    ((tokenizeBytes [1, 1, 1]).1.map Token.type).getLast? = some TokenType.TOKEN_EOF
    ∧ ((initLexer [1, 1, 1]).pos < (initLexer [1, 1, 1]).src.length
        ∧ (initLexer [1, 1, 1]).pos < (scanToken (initLexer [1, 1, 1])).2.pos)
    ∧ ((initLexer [1, 1, 1]).pos < (initLexer [1, 1, 1]).src.length
        ∧ (initLexer [1, 1, 1]).pos < (scanUnknown (initLexer [1, 1, 1])).2.pos) :=
  ⟨tokenize_terminates_last_eof.1 [1, 1, 1],
   ⟨by decide, tokenize_terminates_last_eof.2.1 _ (by decide)⟩,
   ⟨by decide, tokenize_terminates_last_eof.2.2 _ (by decide)⟩⟩

/-- C2: the numeric classification table: "123", "0x1A", "0b101" each
lex to one Int token; "3.14" and "1e10" to one Float token; "3.14." to a
Float token covering exactly the first four bytes followed by a dot
operator token; "0..10" to Int "0", range "..", Int "10". -/
theorem numeric_literal_classification :
    ((tokenizeBytes (ofStr "123")).1.map Token.type
      = [TokenType.LIT_INT, TokenType.TOKEN_EOF])
    ∧ ((tokenizeBytes (ofStr "0x1A")).1.map Token.type
      = [TokenType.LIT_INT, TokenType.TOKEN_EOF])
    ∧ ((tokenizeBytes (ofStr "0b101")).1.map Token.type
      = [TokenType.LIT_INT, TokenType.TOKEN_EOF])
    ∧ ((tokenizeBytes (ofStr "3.14")).1.map Token.type
      = [TokenType.LIT_FLOAT, TokenType.TOKEN_EOF])
    ∧ ((tokenizeBytes (ofStr "1e10")).1.map Token.type
      = [TokenType.LIT_FLOAT, TokenType.TOKEN_EOF])
    ∧ ((tokenizeBytes (ofStr "3.14.")).1.map (fun t => (t.type, t.offset, t.length))
      = [(TokenType.LIT_FLOAT, 0, 4), (TokenType.OP_DOT, 4, 1),
         (TokenType.TOKEN_EOF, 5, 0)])
    ∧ ((tokenizeBytes (ofStr "0..10")).1.map (fun t => (t.type, t.offset, t.length))
      = [(TokenType.LIT_INT, 0, 1), (TokenType.OP_DOT_DOT, 1, 2),
         (TokenType.LIT_INT, 3, 2), (TokenType.TOKEN_EOF, 5, 0)]) := by
  decide

/-- C3: the unterminated-string recovery scenario: exactly one
UnterminatedString error is recorded (the newline ends the string and is
not consumed into it), and the tokens after the broken literal are still
KW_LET, IDENTIFIER "x", OP_ASSIGN, LIT_INT "1", DELIM_SEMICOLON. -/
theorem unterminated_string_error_recovery :
    ((tokenizeBytes (ofStr "let s = \"unterminated\nlet x = 1;")).1.map
        (fun t => (t.type, t.offset, t.length))
      = [(TokenType.KW_LET, 0, 3), (TokenType.IDENTIFIER, 4, 1),
         (TokenType.OP_ASSIGN, 6, 1), (TokenType.LIT_STRING, 8, 13),
         (TokenType.KW_LET, 22, 3), (TokenType.IDENTIFIER, 26, 1),
         (TokenType.OP_ASSIGN, 28, 1), (TokenType.LIT_INT, 30, 1),
         (TokenType.DELIM_SEMICOLON, 31, 1), (TokenType.TOKEN_EOF, 32, 0)])
    ∧ ((tokenizeBytes (ofStr "let s = \"unterminated\nlet x = 1;")).2.errors.map
        LexError.code = [LexerErrorCode.UnterminatedString])
    ∧ (SourceManager.slice
        (smOf (ofStr "let s = \"unterminated\nlet x = 1;") "test.cz") 1 26 1
      = ofStr "x")
    ∧ (SourceManager.slice
        (smOf (ofStr "let s = \"unterminated\nlet x = 1;") "test.cz") 1 30 1
      = ofStr "1") := by
  decide

/-- C5: every 2-byte and every 3-byte operator sequence in the grammar
tables lexes, as a whole input, to exactly one token of the longest-match
kind followed by EOF. -/
theorem operator_longest_match :
    (∀ e ∈ kDoubleCharTokens,
      (tokenizeBytes [e.1.1, e.1.2]).1.map Token.type = [e.2, TokenType.TOKEN_EOF])
    ∧ (∀ e ∈ kTripleCharTokens,
      (tokenizeBytes [e.1.1, e.1.2.1, e.1.2.2]).1.map Token.type
        = [e.2, TokenType.TOKEN_EOF]) := by
  decide

/-- Witness for C5 at the inclusive-range operator: "..=" lexes to one
OP_DOT_DOT_EQ token. -/
theorem operator_longest_match_witness :
    ((46, 46, 61), TokenType.OP_DOT_DOT_EQ) ∈ kTripleCharTokens
    ∧ (tokenizeBytes [46, 46, 61]).1.map Token.type
      = [TokenType.OP_DOT_DOT_EQ, TokenType.TOKEN_EOF] :=
  ⟨by decide,
   operator_longest_match.2 ((46, 46, 61), TokenType.OP_DOT_DOT_EQ) (by decide)⟩

/-- C6 (bug evaluation): on input "1e" the number scanner consumes the
exponent marker, consumes no digit after it, records no error (the
registered MissingExponentDigits code is never emitted), and returns a
single Float token covering both bytes — the exponent-digit requirement
is not enforced. -/
theorem exponent_digits_not_enforced :
    ((tokenizeBytes (ofStr "1e")).1.map (fun t => (t.type, t.offset, t.length))
      = [(TokenType.LIT_FLOAT, 0, 2), (TokenType.TOKEN_EOF, 2, 0)])
    ∧ (tokenizeBytes (ofStr "1e")).2.errors = [] := by
  decide

/-- C7 counterexample: for the string token scanned from the source text
"hello" in quotes, value() does not strip the quotes — it returns the
full quoted source text, which differs from the unquoted payload. -/
theorem token_value_keeps_quotes_counterexample :
    ((tokenizeBytes (ofStr "\"hello\"")).1.map
        (fun t => SourceManager.slice (smOf (ofStr "\"hello\"") "f.cz")
          t.buffer t.offset t.length)).head?
      = some (ofStr "\"hello\"")
    ∧ ofStr "\"hello\"" ≠ ofStr "hello" := by
  decide

/-- C7 amended: for every token produced by tokenize, value() and
rawLiteral() resolve through the same buffer handle to the same text (the
scanners never install a separate raw-literal slice), and in particular
for the string token from "hello" in quotes both return the quoted
source text. -/
theorem token_value_eq_rawLiteral :
    (∀ src : List Nat, ∀ t ∈ (tokenizeBytes src).1, ∀ sm : SourceManager,
      SourceManager.slice sm t.buffer t.offset t.length
        = SourceManager.slice sm t.buffer t.rawOffset t.rawLength)
    ∧ ((tokenizeBytes (ofStr "\"hello\"")).1.map
        (fun t => (SourceManager.slice (smOf (ofStr "\"hello\"") "f.cz")
            t.buffer t.offset t.length,
          SourceManager.slice (smOf (ofStr "\"hello\"") "f.cz")
            t.buffer t.rawOffset t.rawLength))).head?
      = some (ofStr "\"hello\"", ofStr "\"hello\"") := by
  constructor
  · intro src t ht sm
    unfold tokenizeBytes tokenize at ht
    obtain ⟨s0, rfl⟩ := mem_tokenizeGo ht
    obtain ⟨h1, h2⟩ := nextToken_raw s0
    rw [h1, h2]
  · decide

/-- Witness for the amended C7 at the concrete string token of
"hello" in quotes. -/
theorem token_value_eq_rawLiteral_witness :
    (⟨TokenType.LIT_STRING, 1, 0, 7, 0, 7, 1, 1, false, false, false⟩ : Token)
      ∈ (tokenizeBytes (ofStr "\"hello\"")).1
    ∧ SourceManager.slice (smOf (ofStr "\"hello\"") "f.cz") 1 0 7
      = SourceManager.slice (smOf (ofStr "\"hello\"") "f.cz") 1 0 7 :=
  ⟨by decide,
   token_value_eq_rawLiteral.1 (ofStr "\"hello\"")
     ⟨TokenType.LIT_STRING, 1, 0, 7, 0, 7, 1, 1, false, false, false⟩ (by decide)
     (smOf (ofStr "\"hello\"") "f.cz")⟩

/-- C10: no token stream ever contains a DELIM_UNDERSCORE token — the
identifier scanner claims every underscore-led run first — and a lone
underscore lexes as an identifier. -/
theorem no_underscore_delim_token :
    (∀ src : List Nat, ∀ t ∈ (tokenizeBytes src).1,
      t.type ≠ TokenType.DELIM_UNDERSCORE)
    ∧ ((tokenizeBytes (ofStr "_")).1.map Token.type
      = [TokenType.IDENTIFIER, TokenType.TOKEN_EOF]) := by
  constructor
  · intro src t ht
    unfold tokenizeBytes tokenize at ht
    obtain ⟨s0, rfl⟩ := mem_tokenizeGo ht
    exact nextToken_type_ne_underscore s0
  · decide

/-- Witness for C10 at the identifier token produced by a lone
underscore. -/
theorem no_underscore_delim_token_witness :
    (⟨TokenType.IDENTIFIER, 1, 0, 1, 0, 1, 1, 1, false, false, false⟩ : Token)
      ∈ (tokenizeBytes (ofStr "_")).1
    ∧ (⟨TokenType.IDENTIFIER, 1, 0, 1, 0, 1, 1, 1, false, false, false⟩ : Token).type
      ≠ TokenType.DELIM_UNDERSCORE :=
  ⟨by decide, no_underscore_delim_token.1 (ofStr "_")
    ⟨TokenType.IDENTIFIER, 1, 0, 1, 0, 1, 1, 1, false, false, false⟩ (by decide)⟩

/-! ### Diagnostics-context lemmas -/

theorem applyWerror_of_off {cfg : DiagConfig} (h : cfg.treatWarningsAsErrors = false)
    (d : Diagnostic) : applyWerror cfg d = d := by
  unfold applyWerror
  rw [if_neg]
  simp [h]

theorem emitCore_errorCount {cfg : DiagConfig} {st : DiagState} {d : Diagnostic}
    (hd : d.level = Level.Error) :
    (emitCore cfg st d).errorCount = st.errorCount + 1 := by
  unfold emitCore
  simp only [hd]
  split_ifs <;> rfl

theorem emitCore_emitted_suppressed {cfg : DiagConfig} {st : DiagState} {d : Diagnostic}
    (hd : d.level = Level.Error)
    (hth : 0 < cfg.maxErrors ∧ cfg.maxErrors < st.errorCount + 1) :
    (emitCore cfg st d).emitted = st.emitted := by
  unfold emitCore
  simp only [hd]
  rw [if_pos hth]

theorem emitCore_emitted_forwarded {cfg : DiagConfig} {st : DiagState} {d : Diagnostic}
    (hd : d.level = Level.Error)
    (hth : ¬(0 < cfg.maxErrors ∧ cfg.maxErrors < st.errorCount + 1)) :
    (emitCore cfg st d).emitted = st.emitted ++ [d] := by
  unfold emitCore
  simp only [hd]
  rw [if_neg hth]

theorem emitCore_seenHashes (cfg : DiagConfig) (st : DiagState) (d : Diagnostic) :
    (emitCore cfg st d).seenHashes = st.seenHashes := by
  unfold emitCore
  rcases d.level <;> dsimp only <;> split_ifs <;> rfl

theorem emit_of_seen {cfg : DiagConfig} {h : HashFns} {st : DiagState} {d : Diagnostic}
    (hc : cfg.deduplicate = true)
    (hseen : computeDiagnosticHash h (applyWerror cfg d) ∈ st.seenHashes) :
    emit cfg h st d = st := by
  unfold emit
  rw [hc]
  simp only [if_true]
  rw [if_pos hseen]

theorem emit_of_fresh {cfg : DiagConfig} {h : HashFns} {st : DiagState} {d : Diagnostic}
    (hc : cfg.deduplicate = true)
    (hfresh : computeDiagnosticHash h (applyWerror cfg d) ∉ st.seenHashes) :
    emit cfg h st d =
      emitCore cfg
        { st with seenHashes :=
            st.seenHashes ++ [computeDiagnosticHash h (applyWerror cfg d)] }
        (applyWerror cfg d) := by
  unfold emit
  rw [hc]
  simp only [if_true]
  rw [if_neg hfresh]

theorem emit_of_nodedup {cfg : DiagConfig} {h : HashFns} {st : DiagState} {d : Diagnostic}
    (hc : cfg.deduplicate = false) :
    emit cfg h st d = emitCore cfg st (applyWerror cfg d) := by
  unfold emit
  rw [hc]
  simp

theorem computeDiagnosticHash_congr (hfns : HashFns) (d d' : Diagnostic)
    (hm : d'.message = d.message) (hc : d'.code = d.code)
    (hp : d'.primarySpan.map (fun sp => (sp.fileId, sp.startOffset))
        = d.primarySpan.map (fun sp => (sp.fileId, sp.startOffset))) :
    computeDiagnosticHash hfns d' = computeDiagnosticHash hfns d := by
  unfold computeDiagnosticHash
  rw [hm, hc]
  rcases h1 : d'.primarySpan with _ | sp1 <;> rcases h2 : d.primarySpan with _ | sp2
  · simp only [h1, h2]
  · rw [h1, h2] at hp
    simp at hp
  · rw [h1, h2] at hp
    simp at hp
  · rw [h1, h2] at hp
    simp only [Option.map_some', Option.some.injEq, Prod.mk.injEq] at hp
    simp only [h1, h2]
    rw [hp.1, hp.2]

/-- C4: with deduplication enabled (and no Werror, no max-error cap),
emitting two error diagnostics with the same message, code and primary
span counts and emits only once; two emissions whose dedup hashes differ
(for example a different error code, or a primary span with a different
file id or start offset) count and emit twice; and the dedup key is a
hash over exactly the message, the code, and the primary span's file id
and start offset. -/
theorem diag_dedup_key_behavior :
    (∀ hfns : HashFns, ∀ d d' : Diagnostic,
      d.level = Level.Error → d'.level = Level.Error →
      d'.message = d.message → d'.code = d.code → d'.primarySpan = d.primarySpan →
      (emit ⟨true, 0, false⟩ hfns (emit ⟨true, 0, false⟩ hfns {} d) d').errorCount = 1
      ∧ (emit ⟨true, 0, false⟩ hfns
          (emit ⟨true, 0, false⟩ hfns {} d) d').emitted.length = 1)
    ∧ (∀ hfns : HashFns, ∀ d d' : Diagnostic,
      d.level = Level.Error → d'.level = Level.Error →
      computeDiagnosticHash hfns d ≠ computeDiagnosticHash hfns d' →
      (emit ⟨true, 0, false⟩ hfns (emit ⟨true, 0, false⟩ hfns {} d) d').errorCount = 2
      ∧ (emit ⟨true, 0, false⟩ hfns
          (emit ⟨true, 0, false⟩ hfns {} d) d').emitted.length = 2)
    ∧ (∀ hfns : HashFns, ∀ d d' : Diagnostic,
      d'.message = d.message → d'.code = d.code →
      d'.primarySpan.map (fun sp => (sp.fileId, sp.startOffset))
        = d.primarySpan.map (fun sp => (sp.fileId, sp.startOffset)) →
      computeDiagnosticHash hfns d' = computeDiagnosticHash hfns d) := by
  have hw : ∀ d : Diagnostic, applyWerror ⟨true, 0, false⟩ d = d := fun d =>
    applyWerror_of_off rfl d
  refine ⟨fun hfns d d' hd hd' hm hc hp => ?_, fun hfns d d' hd hd' hne => ?_,
    fun hfns d d' hm hc hp => computeDiagnosticHash_congr hfns d d' hm hc hp⟩
  · have hkey : computeDiagnosticHash hfns d' = computeDiagnosticHash hfns d :=
      computeDiagnosticHash_congr hfns d d' hm hc (by rw [hp])
    have hfresh : computeDiagnosticHash hfns
        (applyWerror ⟨true, 0, false⟩ d) ∉ (({} : DiagState)).seenHashes := by
      simp [DiagState.seenHashes]
    rw [emit_of_seen rfl (by
      rw [emit_of_fresh rfl hfresh, emitCore_seenHashes, hw, hw, hkey]
      simp [DiagState.seenHashes])]
    rw [emit_of_fresh rfl hfresh, hw]
    constructor
    · rw [emitCore_errorCount hd]
    · rw [emitCore_emitted_forwarded hd (by simp)]
      simp [DiagState.emitted]
  · have hfresh : computeDiagnosticHash hfns
        (applyWerror ⟨true, 0, false⟩ d) ∉ (({} : DiagState)).seenHashes := by
      simp [DiagState.seenHashes]
    have hfresh2 : computeDiagnosticHash hfns (applyWerror ⟨true, 0, false⟩ d')
        ∉ (emit ⟨true, 0, false⟩ hfns {} d).seenHashes := by
      rw [emit_of_fresh rfl hfresh, emitCore_seenHashes, hw, hw]
      simp [DiagState.seenHashes]
      exact fun hx => hne hx.symm
    rw [emit_of_fresh rfl hfresh2, hw]
    have hcount1 : (emit ⟨true, 0, false⟩ hfns {} d).errorCount = 1 := by
      rw [emit_of_fresh rfl hfresh, hw, emitCore_errorCount hd]
    have hemit1 : (emit ⟨true, 0, false⟩ hfns {} d).emitted = [d] := by
      rw [emit_of_fresh rfl hfresh, hw, emitCore_emitted_forwarded hd (by simp)]
      simp [DiagState.emitted]
    constructor
    · rw [emitCore_errorCount hd']
      simp [hcount1]
    · rw [emitCore_emitted_forwarded hd' (by simp)]
      simp [hemit1]

/-- Witness for C4 with identity-style hash functions, a duplicate error
diagnostic, and a variant differing only in its error code. -/
theorem diag_dedup_key_behavior_witness :
    ((emit ⟨true, 0, false⟩ ⟨fun _ => 0, fun x => x⟩
        (emit ⟨true, 0, false⟩ ⟨fun _ => 0, fun x => x⟩ {}
          ⟨Level.Error, "dup", some ⟨1, 1001⟩, [⟨⟨1, 5, 9⟩, true⟩]⟩)
        ⟨Level.Error, "dup", some ⟨1, 1001⟩, [⟨⟨1, 5, 9⟩, true⟩]⟩).errorCount = 1
      ∧ (emit ⟨true, 0, false⟩ ⟨fun _ => 0, fun x => x⟩
        (emit ⟨true, 0, false⟩ ⟨fun _ => 0, fun x => x⟩ {}
          ⟨Level.Error, "dup", some ⟨1, 1001⟩, [⟨⟨1, 5, 9⟩, true⟩]⟩)
        ⟨Level.Error, "dup", some ⟨1, 1001⟩, [⟨⟨1, 5, 9⟩, true⟩]⟩).emitted.length = 1)
    ∧ ((emit ⟨true, 0, false⟩ ⟨fun _ => 0, fun x => x⟩
        (emit ⟨true, 0, false⟩ ⟨fun _ => 0, fun x => x⟩ {}
          ⟨Level.Error, "dup", some ⟨1, 1001⟩, [⟨⟨1, 5, 9⟩, true⟩]⟩)
        ⟨Level.Error, "dup", some ⟨1, 1002⟩, [⟨⟨1, 5, 9⟩, true⟩]⟩).errorCount = 2
      ∧ (emit ⟨true, 0, false⟩ ⟨fun _ => 0, fun x => x⟩
        (emit ⟨true, 0, false⟩ ⟨fun _ => 0, fun x => x⟩ {}
          ⟨Level.Error, "dup", some ⟨1, 1001⟩, [⟨⟨1, 5, 9⟩, true⟩]⟩)
        ⟨Level.Error, "dup", some ⟨1, 1002⟩, [⟨⟨1, 5, 9⟩, true⟩]⟩).emitted.length = 2) :=
  ⟨diag_dedup_key_behavior.1 ⟨fun _ => 0, fun x => x⟩
      ⟨Level.Error, "dup", some ⟨1, 1001⟩, [⟨⟨1, 5, 9⟩, true⟩]⟩
      ⟨Level.Error, "dup", some ⟨1, 1001⟩, [⟨⟨1, 5, 9⟩, true⟩]⟩
      rfl rfl rfl rfl rfl,
   diag_dedup_key_behavior.2.1 ⟨fun _ => 0, fun x => x⟩
      ⟨Level.Error, "dup", some ⟨1, 1001⟩, [⟨⟨1, 5, 9⟩, true⟩]⟩
      ⟨Level.Error, "dup", some ⟨1, 1002⟩, [⟨⟨1, 5, 9⟩, true⟩]⟩
      rfl rfl (by decide)⟩

/-- C8: with a positive max-error threshold, an error emit always updates
the counter, but the diagnostic is forwarded to the emitter only when the
resulting count is at or below the threshold; above it, forwarding is
suppressed. -/
theorem diag_max_errors_threshold :
    ∀ (hfns : HashFns) (st : DiagState) (d : Diagnostic) (m : Nat),
      0 < m → d.level = Level.Error →
      (emit ⟨false, m, false⟩ hfns st d).errorCount = st.errorCount + 1
      ∧ (m < st.errorCount + 1 →
          (emit ⟨false, m, false⟩ hfns st d).emitted = st.emitted)
      ∧ (st.errorCount + 1 ≤ m →
          (emit ⟨false, m, false⟩ hfns st d).emitted = st.emitted ++ [d]) := by
  intro hfns st d m hm hd
  rw [emit_of_nodedup rfl, applyWerror_of_off rfl]
  refine ⟨emitCore_errorCount hd, fun hlt => ?_, fun hle => ?_⟩
  · exact emitCore_emitted_suppressed hd ⟨hm, hlt⟩
  · refine emitCore_emitted_forwarded hd ?_
    intro hx
    have h2 : m < st.errorCount + 1 := hx.2
    omega

/-- Witness for C8 at threshold 1 from a state that already counted one
error (suppressed) and from the empty state (forwarded). -/
theorem diag_max_errors_threshold_witness :
    ((emit ⟨false, 1, false⟩ ⟨fun _ => 0, fun x => x⟩
        ⟨1, 0, 0, false, [], [], [⟨Level.Error, "e0", none, []⟩]⟩
        ⟨Level.Error, "e1", none, []⟩).errorCount = 2
      ∧ (emit ⟨false, 1, false⟩ ⟨fun _ => 0, fun x => x⟩
        ⟨1, 0, 0, false, [], [], [⟨Level.Error, "e0", none, []⟩]⟩
        ⟨Level.Error, "e1", none, []⟩).emitted = [⟨Level.Error, "e0", none, []⟩])
    ∧ ((emit ⟨false, 1, false⟩ ⟨fun _ => 0, fun x => x⟩ {}
        ⟨Level.Error, "e1", none, []⟩).errorCount = 1
      ∧ (emit ⟨false, 1, false⟩ ⟨fun _ => 0, fun x => x⟩ {}
        ⟨Level.Error, "e1", none, []⟩).emitted = [⟨Level.Error, "e1", none, []⟩]) :=
  ⟨⟨(diag_max_errors_threshold ⟨fun _ => 0, fun x => x⟩
      ⟨1, 0, 0, false, [], [], [⟨Level.Error, "e0", none, []⟩]⟩
      ⟨Level.Error, "e1", none, []⟩ 1 (by decide) rfl).1,
    (diag_max_errors_threshold ⟨fun _ => 0, fun x => x⟩
      ⟨1, 0, 0, false, [], [], [⟨Level.Error, "e0", none, []⟩]⟩
      ⟨Level.Error, "e1", none, []⟩ 1 (by decide) rfl).2.1 (by decide)⟩,
   ⟨(diag_max_errors_threshold ⟨fun _ => 0, fun x => x⟩ {}
      ⟨Level.Error, "e1", none, []⟩ 1 (by decide) rfl).1,
    (diag_max_errors_threshold ⟨fun _ => 0, fun x => x⟩ {}
      ⟨Level.Error, "e1", none, []⟩ 1 (by decide) rfl).2.2 (by decide)⟩⟩

/-- C9: every Source Arena accessor returns an empty view for the zero
sentinel handle, for an id beyond the buffer count, for an out-of-range
byte offset, and for a zero or out-of-range line number — and valid
queries return the stored buffer contents unchanged. -/
theorem source_arena_accessors_total :
    (∀ (sm : SourceManager) (o l n : Nat),
      SourceManager.getSource sm 0 = [] ∧ SourceManager.slice sm 0 o l = []
      ∧ SourceManager.getFilename sm 0 = ""
      ∧ SourceManager.getLineContent sm 0 n = [])
    ∧ (∀ (sm : SourceManager) (id o l n : Nat), sm.buffers.length < id →
      SourceManager.getSource sm id = [] ∧ SourceManager.slice sm id o l = []
      ∧ SourceManager.getFilename sm id = ""
      ∧ SourceManager.getLineContent sm id n = [])
    ∧ (∀ (sm : SourceManager) (id o l : Nat),
      (SourceManager.getSource sm id).length ≤ o →
      SourceManager.slice sm id o l = [])
    ∧ (∀ (sm : SourceManager) (id : Nat), SourceManager.getLineContent sm id 0 = [])
    ∧ (∀ (sm : SourceManager) (id n : Nat),
      (SourceManager.lineOffsets (SourceManager.getSource sm id)).length < n →
      SourceManager.getLineContent sm id n = [])
    ∧ (∀ (sm : SourceManager) (id : Nat) (b : SMBuffer), id ≠ 0 →
      sm.buffers[id - 1]? = some b →
      SourceManager.getSource sm id = b.source
      ∧ SourceManager.getFilename sm id = b.filename) := by
  refine ⟨fun sm o l n => ?_, fun sm id o l n hlen => ?_, fun sm id o l ho => ?_,
    fun sm id => ?_, fun sm id n hn => ?_, fun sm id b hid hb => ?_⟩
  · have hv : sm.validHandle 0 = false := by simp [SourceManager.validHandle]
    refine ⟨?_, ?_, ?_, ?_⟩ <;>
      simp [SourceManager.getSource, SourceManager.slice, SourceManager.getFilename,
        SourceManager.getLineContent, hv]
  · have hv : sm.validHandle id = false := by
      simp [SourceManager.validHandle]
      omega
    refine ⟨?_, ?_, ?_, ?_⟩ <;>
      simp [SourceManager.getSource, SourceManager.slice, SourceManager.getFilename,
        SourceManager.getLineContent, hv]
  · by_cases hv : sm.validHandle id = true
    · rcases hb : sm.buffers[id - 1]? with _ | b
      · simp [SourceManager.slice, hv, hb]
      · have hsrc : SourceManager.getSource sm id = b.source := by
          simp [SourceManager.getSource, hv, hb]
        rw [hsrc] at ho
        simp [SourceManager.slice, hv, hb, ho]
    · simp [SourceManager.slice, hv]
  · simp [SourceManager.getLineContent]
  · by_cases hv : sm.validHandle id = true
    · rcases hb : sm.buffers[id - 1]? with _ | b
      · simp [SourceManager.getLineContent, hv, hb]
      · have hsrc : SourceManager.getSource sm id = b.source := by
          simp [SourceManager.getSource, hv, hb]
        rw [hsrc] at hn
        have hidx : (SourceManager.lineOffsets b.source).length ≤ n - 1 := by
          have hpos : 0 < (SourceManager.lineOffsets b.source).length := by
            simp [SourceManager.lineOffsets]
          omega
        have hnone : (SourceManager.lineOffsets b.source)[n - 1]? = none := by
          simp [List.getElem?_eq_none_iff, hidx]
        simp [SourceManager.getLineContent, hv, hb, hnone]
    · simp [SourceManager.getLineContent, hv]
  · have hlt : id - 1 < sm.buffers.length := (List.getElem?_eq_some.mp hb).1
    have hv : sm.validHandle id = true := by
      simp [SourceManager.validHandle]
      omega
    constructor
    · simp [SourceManager.getSource, hv, hb]
    · simp [SourceManager.getFilename, hv, hb]

/-- Witness for C9 over a concrete two-line buffer: invalid handles 0 and
2, an out-of-range offset and line number, and the valid queries. -/
theorem source_arena_accessors_total_witness :
    (SourceManager.getSource (smOf (ofStr "ab\ncd") "w.cz") 0 = []
      ∧ SourceManager.slice (smOf (ofStr "ab\ncd") "w.cz") 0 1 2 = []
      ∧ SourceManager.getFilename (smOf (ofStr "ab\ncd") "w.cz") 0 = ""
      ∧ SourceManager.getLineContent (smOf (ofStr "ab\ncd") "w.cz") 0 1 = [])
    ∧ (SourceManager.getSource (smOf (ofStr "ab\ncd") "w.cz") 2 = []
      ∧ SourceManager.slice (smOf (ofStr "ab\ncd") "w.cz") 2 1 2 = []
      ∧ SourceManager.getFilename (smOf (ofStr "ab\ncd") "w.cz") 2 = ""
      ∧ SourceManager.getLineContent (smOf (ofStr "ab\ncd") "w.cz") 2 1 = [])
    ∧ SourceManager.slice (smOf (ofStr "ab\ncd") "w.cz") 1 9 3 = []
    ∧ SourceManager.getLineContent (smOf (ofStr "ab\ncd") "w.cz") 1 0 = []
    ∧ SourceManager.getLineContent (smOf (ofStr "ab\ncd") "w.cz") 1 7 = []
    ∧ (SourceManager.getSource (smOf (ofStr "ab\ncd") "w.cz") 1 = ofStr "ab\ncd"
      ∧ SourceManager.getFilename (smOf (ofStr "ab\ncd") "w.cz") 1 = "w.cz") :=
  ⟨source_arena_accessors_total.1 (smOf (ofStr "ab\ncd") "w.cz") 1 2 1,
   source_arena_accessors_total.2.1 (smOf (ofStr "ab\ncd") "w.cz") 2 1 2 1 (by decide),
   source_arena_accessors_total.2.2.1 (smOf (ofStr "ab\ncd") "w.cz") 1 9 3 (by decide),
   source_arena_accessors_total.2.2.2.1 (smOf (ofStr "ab\ncd") "w.cz") 1,
   source_arena_accessors_total.2.2.2.2.1 (smOf (ofStr "ab\ncd") "w.cz") 1 7 (by decide),
   source_arena_accessors_total.2.2.2.2.2 (smOf (ofStr "ab\ncd") "w.cz") 1
     ⟨ofStr "ab\ncd", "w.cz", false, none⟩ (by decide) (by decide)⟩

end CZC